import Mathlib

/-! Verification of gopacker: the dual-mode packer / stub protocol.

A shallow embedding of `main.go`: the trailer check in `main`, the packer
`mainCLI` (with `copyFile` and `appendToFile`) and the stub runtime `mainStub`.

* Bytes are `Fin 256`; a file's content is a `List Byte`.
* The file system maps every path to the file it names and every file to its
  node (regular file or directory).  Several paths may name one file (symbolic
  link, hard link, another spelling of the path).  Permissions are not
  represented.
* Opening the file of the running binary for writing is refused ("text file
  busy").
* Go's `int64` values are integers reduced by `wrapInt64`; `uint64` values are
  naturals below `2^64`; `int` is taken to be 64 bits wide.
* `log.Fatal` ends the run with `Exit.fatal`, a runtime panic with `Exit.panic`.
* The compression library (`lib.ZSTDCompression`, `lib.CompressStream`,
  `lib.DecompressStream`) is a parameter of the development.
* Errors of the operating system (a write cut short, a child that cannot be
  started) are supplied by a `Faults` plan; the plan `Faults.none` is a run
  without any.
-/

namespace GoPacker

/-! ## Bytes, constants and machine integers -/

abbrev Byte := Fin 256

/-- Constant `usageString`. -/
def usageString : String := "USAGE: gopacker <executable_path>"

/-- Constant `packedExt`. -/
def packedExt : String := ".packed"

/-- The bytes of `footerMagicString = "LALALALA"` (`L` is 0x4C, `A` is 0x41). -/
def footerMagic : List Byte := [0x4C, 0x41, 0x4C, 0x41, 0x4C, 0x41, 0x4C, 0x41]

/-- Reduction of an integer to the `int64` range (two's complement):
`2^63 = 9223372036854775808`, `2^64 = 18446744073709551616`. -/
def wrapInt64 (x : Int) : Int :=
  (x + 9223372036854775808) % 18446744073709551616 - 9223372036854775808

/-- The largest `int64`, `1<<63 - 1`. -/
def maxInt64 : Int := 9223372036854775807

/-- Conversion `uint64(x)` of an `int64`. -/
def toUint64 (x : Int) : Nat := (x % 18446744073709551616).toNat

/-- The conversion `byte(v)`. -/
def toByte (v : Nat) : Byte := Fin.ofNat v

/-- Go's `binary.LittleEndian.PutUint64` on a fresh 8-byte slice:
`b[i] = byte(v >> (8*i))`. -/
def putUint64 (v : Nat) : List Byte :=
  [toByte v, toByte (v >>> 8), toByte (v >>> 16), toByte (v >>> 24),
   toByte (v >>> 32), toByte (v >>> 40), toByte (v >>> 48), toByte (v >>> 56)]

/-- Byte `i` of a slice as a number (zero past the end; the callers pass 8 bytes). -/
def byteAt (b : List Byte) (i : Nat) : Nat := (b.getD i 0).val

/-- Go's `binary.LittleEndian.Uint64`:
`b[0] | b[1]<<8 | ... | b[7]<<56`. -/
def uint64LE (b : List Byte) : Nat :=
  byteAt b 0 + (byteAt b 1 <<< 8) + (byteAt b 2 <<< 16) + (byteAt b 3 <<< 24)
    + (byteAt b 4 <<< 32) + (byteAt b 5 <<< 40) + (byteAt b 6 <<< 48) + (byteAt b 7 <<< 56)

/-! ## The compression library (not part of `main.go`) -/

/-- Modelled from the spec: the package `lib` (`lib.ZSTDCompression`,
`lib.CompressStream`, `lib.DecompressStream`) is imported by `main.go` and is
not in the source tree.  The spec treats it as an opaque stream transform with
an encode/decode pair: `compress` maps the bytes read to the bytes written,
`decompress` maps the bytes read to the bytes written or fails. -/
structure Compression where
  compress : List Byte → List Byte
  decompress : List Byte → Option (List Byte)

/-- A transform that stores its input unchanged; used for concrete runs. -/
def storeCompression : Compression where
  compress := fun d => d
  decompress := fun d => some d

/-! ## Files and file handles -/

/-- What a file is: a regular file with its content, or a directory. -/
inductive Node where
  | file (data : List Byte)
  | dir
  deriving DecidableEq, Repr

/-- The file system.  `resolve p` is the file that the path `p` names, given as
one chosen path of that file (`p` itself unless `p` is a link or another
spelling); `store` holds the node of each file, if it exists.  Opening a path
that names no file with `O_CREATE` creates the file it resolves to. -/
structure FS where
  resolve : String → String
  store : String → Option Node

/-- What a path names, if anything. -/
def FS.get (fs : FS) (p : String) : Option Node := fs.store (fs.resolve p)

instance : CoeFun FS (fun _ => String → Option Node) := ⟨FS.get⟩

/-- The file system after the file named by `p` is replaced. -/
def FS.write (fs : FS) (p : String) (n : Node) : FS :=
  ⟨fs.resolve, fun k => if k = fs.resolve p then some n else fs.store k⟩

/-- Two paths name the same file. -/
def FS.sameFile (fs : FS) (p q : String) : Prop := fs.resolve p = fs.resolve q

instance (fs : FS) (p q : String) : Decidable (fs.sameFile p q) :=
  inferInstanceAs (Decidable (fs.resolve p = fs.resolve q))

/-- A file system without links: every path names its own file. -/
def FS.plain (store : String → Option Node) : FS := ⟨fun p => p, store⟩

/-- A reader handed to a stream function: the bytes it delivers before `io.EOF`,
or a read error. -/
abbrev Reader := Except String (List Byte)

/-- The reader of a handle from `os.Open(p)`: a regular file delivers its
content; reading a directory handle fails. -/
def openReader (fs : FS) (p : String) : Option Reader :=
  match fs p with
  | none => none
  | some Node.dir => some (Except.error "is a directory")
  | some (Node.file d) => some (Except.ok d)

/-- Method `(*os.File).Seek(off, 0)`: the new position, or an error for a negative
offset.  Positions past the end of the file are accepted. -/
def seekStart (off : Int) : Except String Nat :=
  if off < 0 then Except.error "invalid argument" else Except.ok off.toNat

/-- Method `(*os.File).Read(buf)` at position `pos` of a regular file with content
`data`: the buffer after the call.  At or past the end it fails with `io.EOF`;
otherwise the available bytes, up to `len(buf)`, overwrite the front of `buf`. -/
def fileRead (data : List Byte) (pos : Nat) (buf : List Byte) : Except String (List Byte) :=
  if buf.length = 0 then Except.ok buf
  else if data.length ≤ pos then Except.error "EOF"
  else
    let got := (data.drop pos).take buf.length
    Except.ok (got ++ buf.drop got.length)

/-- The bytes a sink receives when a write error, if any, strikes after `k`
bytes. -/
def written (data : List Byte) (fault : Option Nat) : List Byte :=
  match fault with
  | none => data
  | some k => data.take k

/-- Whether the write of `data` ends with an error: the fault strikes before all
of `data` has been written. -/
def faultHits (data : List Byte) (fault : Option Nat) : Bool :=
  match fault with
  | none => false
  | some k => decide (k < data.length)

/-! ## Outcome of a run -/

/-- How the process ends: normally, through `log.Fatal`, or in a runtime panic. -/
inductive Exit where
  | ok
  | fatal (msg : String)
  | panic (msg : String)
  deriving DecidableEq, Repr

/-- The observable result of a run: exit, file system, lines printed, and the
path of the child process started (stub mode). -/
structure Outcome where
  exit : Exit
  fs : FS
  printed : List String
  spawned : Option String

/-- Errors of the operating system injected into a run: a write error in each of
the four writes of a pack run, and whether `cmd.Start()` fails in a stub run (as
it does when the extracted file is not an executable). -/
structure Faults where
  copy : Option Nat
  payload : Option Nat
  len : Option Nat
  magic : Option Nat
  start : Bool

/-- A run without errors of the operating system. -/
def Faults.none : Faults := ⟨Option.none, Option.none, Option.none, Option.none, false⟩

/-! ## `copyFile` and `appendToFile` -/

/-- Function `copyFile(src, dst)`: the error, if any, and the file system after.
`running` is the path of the running binary: `os.OpenFile` refuses to open its
file for writing, as it refuses a directory. -/
def copyFile (fs : FS) (running src dst : String) (fault : Option Nat) : Option String × FS :=
  match fs src with
  | none => (some "src file does not exist", fs)
  | some Node.dir => (some (src ++ " is not a regular file"), fs)
  | some (Node.file _) =>
    -- os.OpenFile(dst, O_CREATE|O_TRUNC|O_WRONLY, 0755)
    match fs dst with
    | some Node.dir => (some "failed opening destination file", fs)
    | _ =>
      if fs.sameFile dst running then (some "failed opening destination file", fs)
      else
        let fs1 := fs.write dst (Node.file [])
        -- io.Copy(destination, source): the source handle reads the file as it is now
        match openReader fs1 src with
        | some (Except.ok d) =>
          (if faultHits d fault then some "write error" else none,
            fs1.write dst (Node.file (written d fault)))
        | some (Except.error e) => (some e, fs1)
        | none => (some "read error", fs1)

/-- Function `appendToFile(dst, in, compress)`: the count returned (an `int64`) or
the error, and the file system after.  With `compress` the count is
`int64(cw.n)`, the bytes that reached the file through the `counterWriter`.
The input is what its handle delivers when the call starts: it is read to its
end before the output is written.  A read error of the input ends the call
before anything is written. -/
def appendToFile (c : Compression) (fs : FS) (running dst : String) (input : Reader)
    (compress : Bool) (fault : Option Nat) : Except String Int × FS :=
  match fs dst with
  | none => (Except.error "destination file does not exist", fs)
  | some Node.dir => (Except.error "failed opening destination file", fs)
  | some (Node.file old) =>
    if fs.sameFile dst running then (Except.error "failed opening destination file", fs)
    else
      match input with
      | Except.error e => (Except.error e, fs)
      | Except.ok d =>
        let out := if compress then c.compress d else d
        let w := written out fault
        let fs1 := fs.write dst (Node.file (old ++ w))
        if faultHits out fault then (Except.error "write error", fs1)
        else (Except.ok (wrapInt64 w.length), fs1)

/-! ## Packer mode -/

/-- Function `mainCLI()`; `args` is `os.Args[1:]` and `selfPath` the path of the
running binary. -/
def mainCLI (c : Compression) (fs : FS) (selfPath : String) (args : List String)
    (faults : Faults) : Outcome :=
  match args with
  | [] => ⟨Exit.ok, fs, [usageString], none⟩
  | target :: _ =>
    let packedPath := target ++ packedExt
    match fs target with
    | none => ⟨Exit.fatal "target exec does not exist", fs, [], none⟩
    | some _ =>
      match copyFile fs selfPath selfPath packedPath faults.copy with
      | (some _, fs1) => ⟨Exit.fatal "failed copying stub", fs1, [], none⟩
      | (none, fs1) =>
        match openReader fs1 target with
        | none => ⟨Exit.fatal "failed opening packed path", fs1, [], none⟩
        | some packedPathHandle =>
          match appendToFile c fs1 selfPath packedPath packedPathHandle true faults.payload with
          | (Except.error _, fs2) => ⟨Exit.fatal "failed appending stub", fs2, [], none⟩
          | (Except.ok bytesWritten, fs2) =>
            let bs := putUint64 (toUint64 bytesWritten)
            match appendToFile c fs2 selfPath packedPath (Except.ok bs) false faults.len with
            | (Except.error _, fs3) => ⟨Exit.fatal "failed appending len", fs3, [], none⟩
            | (Except.ok _, fs3) =>
              match appendToFile c fs3 selfPath packedPath (Except.ok footerMagic) false
                  faults.magic with
              | (Except.error _, fs4) => ⟨Exit.fatal "failed appending magic", fs4, [], none⟩
              | (Except.ok _, fs4) => ⟨Exit.ok, fs4, [], none⟩

/-! ## Stub mode -/

/-- Lines 131-141 of `mainStub`: seek to the length field, read it, decode
`targetLen` and compute `compressedOff`.  Returns `(compressedOff, targetLen)`. -/
def stubLocate (data : List Byte) (fileSize : Int) : Except String (Int × Int) :=
  let dstLen : List Byte := List.replicate 8 0
  match seekStart (fileSize - (footerMagic.length : Int) - (dstLen.length : Int)) with
  | Except.error _ => Except.error "failed seeking length"
  | Except.ok pos =>
    match fileRead data pos dstLen with
    | Except.error _ => Except.error "failed reading length"
    | Except.ok dstLen =>
      let targetLen := wrapInt64 (uint64LE dstLen)
      let compressedOff :=
        wrapInt64 (fileSize - (footerMagic.length : Int) - (dstLen.length : Int) - targetLen)
      Except.ok (compressedOff, targetLen)

/-- The limit computed by `io.NewSectionReader(r, off, n)`: `off + n`, or
`maxInt64` when the test `off <= maxint64 - n` fails.  (Go releases without
that test compute `off + n`; the two agree when `n >= 0` and `off + n` does not
overflow.) -/
def sectionLimit (off n : Int) : Int :=
  if off ≤ wrapInt64 (maxInt64 - n) then wrapInt64 (n + off) else maxInt64

/-- Whether the first `SectionReader.Read` panics: with `off < limit` it computes
`max := limit - off` in `int64` and slices the buffer to `p[0:max]`, which is out
of range when the subtraction has overflowed to a negative `max`. -/
def sectionPanics (off n : Int) : Bool :=
  decide (off < sectionLimit off n ∧ wrapInt64 (sectionLimit off n - off) < 0)

/-- Everything a consumer reads from `io.NewSectionReader(file, off, n)` until
`io.EOF`, or the read error.  `SectionReader.Read` reports `io.EOF` once
`off >= limit`; otherwise it cuts the buffer to `max = limit - off` bytes (a
negative `max` is the panic of `sectionPanics`) and calls `file.ReadAt`, which
rejects a negative offset and reports `io.EOF` at the end of the file. -/
def sectionReadAll (data : List Byte) (off n : Int) : Reader :=
  let limit := sectionLimit off n
  if limit ≤ off then Except.ok []
  else
    let max := wrapInt64 (limit - off)
    if max < 0 then Except.error "slice bounds out of range"
    else if off < 0 then Except.error "negative offset"
    else Except.ok ((data.drop off.toNat).take max.toNat)

/-- Function `ioutil.WriteFile(p, buf, 0755)`: creates or truncates `p`; refused
for a directory and for the file of the running binary. -/
def writeFile (fs : FS) (running p : String) (buf : List Byte) : Option FS :=
  match fs p with
  | some Node.dir => none
  | _ => if fs.sameFile p running then none else some (fs.write p (Node.file buf))

/-- Function `mainStub(selfFileHandle, fileSize)`; `data` is the content behind the
handle and `startFails` tells whether `cmd.Start()` returns an error.  The later
wait and removal run in a goroutine and are not part of the outcome. -/
def mainStub (c : Compression) (fs : FS) (selfPath : String) (data : List Byte)
    (fileSize : Int) (startFails : Bool) : Outcome :=
  let unpackedPath := selfPath ++ "_unpacked.exe"
  match stubLocate data fileSize with
  | Except.error e => ⟨Exit.fatal e, fs, [], none⟩
  | Except.ok (compressedOff, targetLen) =>
    if sectionPanics compressedOff targetLen then
      ⟨Exit.panic "slice bounds out of range", fs, [], none⟩
    else
      match sectionReadAll data compressedOff targetLen with
      | Except.error _ => ⟨Exit.fatal "failed decompressing file", fs, [], none⟩
      | Except.ok view =>
        match c.decompress view with
        | none => ⟨Exit.fatal "failed decompressing file", fs, [], none⟩
        | some buf =>
          match writeFile fs selfPath unpackedPath buf with
          | none => ⟨Exit.fatal "failed writing unpacked file", fs, [], none⟩
          | some fs1 =>
            if startFails then
              ⟨Exit.fatal "failed running unpacked executable", fs1, [], none⟩
            else ⟨Exit.ok, fs1, [], some unpackedPath⟩

/-! ## The entry point -/

/-- The two modes of the binary. -/
inductive Mode where
  | packer
  | stub
  deriving DecidableEq, Repr

/-- Lines 187-198 of `main`: seek to `size - len(footerMagic)`, read
`len(footerMagic)` bytes and compare them with the magic. -/
def identityResolver (data : List Byte) (size : Int) : Except String Mode :=
  let dstMagic : List Byte := List.replicate footerMagic.length 0
  match seekStart (size - (footerMagic.length : Int)) with
  | Except.error _ => Except.error "failed seeking magic"
  | Except.ok pos =>
    match fileRead data pos dstMagic with
    | Except.error _ => Except.error "failed reading magic"
    | Except.ok dstMagic =>
      if footerMagic = dstMagic then Except.ok Mode.stub else Except.ok Mode.packer

/-- Function `main()`, with `selfPath` the absolute path of the running binary.
A directory at `selfPath` cannot be read and ends the run. -/
def main (c : Compression) (fs : FS) (selfPath : String) (args : List String)
    (faults : Faults) : Outcome :=
  match fs selfPath with
  | none => ⟨Exit.fatal "failed stat self file", fs, [], none⟩
  | some Node.dir => ⟨Exit.fatal "failed reading magic", fs, [], none⟩
  | some (Node.file data) =>
    match identityResolver data data.length with
    | Except.error e => ⟨Exit.fatal e, fs, [], none⟩
    | Except.ok Mode.packer => mainCLI c fs selfPath args faults
    | Except.ok Mode.stub => mainStub c fs selfPath data data.length faults.start

/-! ## Vocabulary of the statements -/

/-- The last `n` bytes of a content (all of it when shorter). -/
def lastBytes (n : Nat) (d : List Byte) : List Byte := d.drop (d.length - n)

/-- The file system `fs2` differs from `fs` at most in the file that `p` names:
paths name the same files, and every other file has the node it had. -/
def FS.agreeOff (fs fs2 : FS) (p : String) : Prop :=
  fs2.resolve = fs.resolve ∧ ∀ k : String, k ≠ fs.resolve p → fs2.store k = fs.store k

/-! ## Concrete runs -/

/-- A 16-byte image: the length field `2^64 - 16` followed by the magic. -/
def corruptImage : List Byte :=
  [0xF0, 0xFF, 0xFF, 0xFF, 0xFF, 0xFF, 0xFF, 0xFF, 0x4C, 0x41, 0x4C, 0x41, 0x4C, 0x41, 0x4C, 0x41]

/-- A file system whose only file is `corruptImage` at `/s`. -/
def corruptFS : FS := FS.plain fun p =>
  if p = "/s" then some (Node.file corruptImage) else none

/-- A file system whose target `/t/m` starts with the 8 magic bytes. -/
def magicTargetFS : FS := FS.plain fun p =>
  if p = "/bin/gopacker" then some (Node.file [1, 2, 3, 4, 5, 6, 7, 8, 9])
  else if p = "/t/m" then
    some (Node.file [0x4C, 0x41, 0x4C, 0x41, 0x4C, 0x41, 0x4C, 0x41, 1, 2])
  else none

/-- A 17-byte image ending with the magic whose length field says 2. -/
def overlongImage : List Byte :=
  [7, 2, 0, 0, 0, 0, 0, 0, 0, 0x4C, 0x41, 0x4C, 0x41, 0x4C, 0x41, 0x4C, 0x41]

/-- A file system whose only file, at `/s`, is the 8 magic bytes alone. -/
def bareMagicFS : FS := FS.plain fun p =>
  if p = "/s" then some (Node.file [0x4C, 0x41, 0x4C, 0x41, 0x4C, 0x41, 0x4C, 0x41]) else none

/-- A file system whose only file, at `/s`, is the magic with its last byte
changed from 0x41 to 0x42. -/
def nearMissFS : FS := FS.plain fun p =>
  if p = "/s" then some (Node.file [0x4C, 0x41, 0x4C, 0x41, 0x4C, 0x41, 0x4C, 0x42]) else none

/-- A file system whose only file, at `/s`, has the length field `2^63` before
the magic. -/
def minLengthFS : FS := FS.plain fun p =>
  if p = "/s" then
    some (Node.file [0, 0, 0, 0, 0, 0, 0, 0x80, 0x4C, 0x41, 0x4C, 0x41, 0x4C, 0x41, 0x4C, 0x41])
  else none

/-- A file system whose only file is `overlongImage` at `/s`. -/
def overlongFS : FS := FS.plain fun p =>
  if p = "/s" then some (Node.file overlongImage) else none

/-- A file system in which `/t/a.packed` is a symbolic link to the target `/t/a`. -/
def linkFS : FS where
  resolve := fun p => if p = "/t/a.packed" then "/t/a" else p
  store := fun p =>
    if p = "/bin/gopacker" then some (Node.file [1, 2, 3, 4, 5, 6, 7, 8, 9])
    else if p = "/t/a" then some (Node.file [10, 20, 30])
    else none

/-- A file system whose packer binary at `/bin/gopacker` has only 7 bytes. -/
def shortSelfFS : FS := FS.plain fun p =>
  if p = "/bin/gopacker" then some (Node.file [1, 2, 3, 4, 5, 6, 7])
  else if p = "/t/a" then some (Node.file [10, 20, 30])
  else none

/-- A file system with a 9-byte packer binary and a directory at `/t/d`. -/
def dirTargetFS : FS := FS.plain fun p =>
  if p = "/bin/gopacker" then some (Node.file [1, 2, 3, 4, 5, 6, 7, 8, 9])
  else if p = "/t/d" then some Node.dir
  else none

/-- A file system with a 9-byte packer binary at `/bin/gopacker` and a 3-byte
target at `/t/a`. -/
def demoFS : FS := FS.plain fun p =>
  if p = "/bin/gopacker" then some (Node.file [1, 2, 3, 4, 5, 6, 7, 8, 9])
  else if p = "/t/a" then some (Node.file [10, 20, 30])
  else none

/-! ## Basic facts -/

theorem footerMagic_length : footerMagic.length = 8 := rfl

theorem putUint64_length (v : Nat) : (putUint64 v).length = 8 := rfl

theorem path_ne_append (t s : String) (hs : 0 < s.length) : t ≠ t ++ s := by
  intro h
  have h2 := congrArg String.length h
  rw [String.length_append] at h2
  omega

theorem packedExt_length : packedExt.length = 7 := by decide

theorem target_ne_packed (t : String) : t ≠ t ++ packedExt :=
  path_ne_append t packedExt (by rw [packedExt_length]; omega)

theorem toUint64_wrapInt64 (n : Nat) :
    toUint64 (wrapInt64 (n : Int)) = n % 18446744073709551616 := by
  unfold toUint64 wrapInt64
  omega

theorem toByte_val (v : Nat) : (toByte v).val = v % 256 := rfl

theorem putUint64_mod (n : Nat) : putUint64 (n % 18446744073709551616) = putUint64 n := by
  unfold putUint64
  simp only [List.cons.injEq, and_true]
  refine ⟨?_, ?_, ?_, ?_, ?_, ?_, ?_, ?_⟩ <;>
    (apply Fin.ext; simp only [toByte_val, Nat.shiftRight_eq_div_pow]; omega)

theorem uint64LE_putUint64 (n : Nat) : uint64LE (putUint64 n) = n % 18446744073709551616 := by
  unfold uint64LE putUint64 byteAt
  simp only [List.getD_cons_zero, List.getD_cons_succ, toByte_val, Nat.shiftRight_eq_div_pow,
    Nat.shiftLeft_eq]
  omega

theorem fileRead_exact (data : List Byte) (pos : Nat) (buf : List Byte)
    (hbuf : 0 < buf.length) (h : pos + buf.length ≤ data.length) :
    fileRead data pos buf = Except.ok ((data.drop pos).take buf.length) := by
  unfold fileRead
  have h1 : ¬ buf.length = 0 := by omega
  have h2 : ¬ data.length ≤ pos := by omega
  have h3 : ((data.drop pos).take buf.length).length = buf.length := by
    rw [List.length_take, List.length_drop]; omega
  simp only [h1, h2, if_false, h3, List.drop_length, List.append_nil]

theorem seekStart_nonneg (n : Nat) : seekStart (n : Int) = Except.ok n := by
  unfold seekStart
  have h : ¬ ((n : Int) < 0) := by omega
  simp only [h, if_false, Int.toNat_ofNat]

theorem seekStart_neg (x : Int) (h : x < 0) : seekStart x = Except.error "invalid argument" := by
  unfold seekStart
  simp only [h, if_true]

theorem lastBytes_length (n : Nat) (d : List Byte) (h : n ≤ d.length) :
    (lastBytes n d).length = n := by
  unfold lastBytes
  rw [List.length_drop]; omega

theorem lastBytes_append_right (n : Nat) (a b : List Byte) (h : b.length = n) :
    lastBytes n (a ++ b) = b := by
  unfold lastBytes
  rw [List.length_append, h, Nat.add_sub_cancel]
  exact List.drop_left a b

/-- The trailer check on a self image of at least 8 bytes: it compares the last
8 bytes with the magic. -/
theorem identityResolver_eq (S : List Byte) (hlen : 8 ≤ S.length) :
    identityResolver S S.length =
      if footerMagic = lastBytes 8 S then Except.ok Mode.stub else Except.ok Mode.packer := by
  unfold identityResolver
  have hs : ((S.length : Int) - ((footerMagic.length : Nat) : Int)) = ((S.length - 8 : Nat) : Int) := by
    rw [footerMagic_length]; omega
  rw [hs, seekStart_nonneg]
  have hr : fileRead S (S.length - 8) (List.replicate footerMagic.length 0)
      = Except.ok (lastBytes 8 S) := by
    rw [fileRead_exact]
    · simp only [List.length_replicate, footerMagic_length]
      unfold lastBytes
      apply congrArg
      apply List.take_of_length_le
      rw [List.length_drop]; omega
    · simp [footerMagic_length]
    · simp only [List.length_replicate, footerMagic_length]; omega
  simp only [hr]

/-- The trailer check on a self image shorter than the magic: the seek fails. -/
theorem identityResolver_short (S : List Byte) (hlen : S.length < 8) :
    identityResolver S S.length = Except.error "failed seeking magic" := by
  unfold identityResolver
  rw [seekStart_neg]
  rw [footerMagic_length]; omega

theorem footerMagic_set_ne (i : Nat) (b : Byte) (hi : i < 8) (hb : b ≠ footerMagic.getD i 0) :
    footerMagic.set i b ≠ footerMagic := by
  intro h
  apply hb
  have h2 := congrArg (fun l => l.getD i 0) h
  interval_cases i <;> simpa [footerMagic] using h2

/-! ## Identity Resolver -/

theorem main_eq_mainCLI (c : Compression) (fs : FS) (selfPath : String)
    (args : List String) (faults : Faults) (S : List Byte)
    (hS : fs selfPath = some (Node.file S)) (hlen : 8 ≤ S.length)
    (h : lastBytes 8 S ≠ footerMagic) :
    main c fs selfPath args faults = mainCLI c fs selfPath args faults := by
  have hid := identityResolver_eq S hlen
  rw [if_neg (fun e => h e.symm)] at hid
  unfold main
  simp only [hS, hid]

/-- C3 (magic detection): for a self image of at least 8 bytes the trailer check
selects stub mode exactly when the last 8 bytes equal the magic; `main` then runs
`mainStub`, and otherwise `mainCLI`.  In particular a file whose last 8 bytes are
the magic with one byte changed goes to packer mode. -/
theorem main_stub_iff_magic (c : Compression) (fs : FS) (selfPath : String)
    (args : List String) (faults : Faults) (S : List Byte)
    (hS : fs selfPath = some (Node.file S)) (hlen : 8 ≤ S.length) :
    (identityResolver S S.length = Except.ok Mode.stub ↔ lastBytes 8 S = footerMagic) ∧
    (lastBytes 8 S = footerMagic →
      main c fs selfPath args faults = mainStub c fs selfPath S S.length faults.start) ∧
    (lastBytes 8 S ≠ footerMagic →
      identityResolver S S.length = Except.ok Mode.packer ∧
      main c fs selfPath args faults = mainCLI c fs selfPath args faults) ∧
    (∀ (i : Nat) (b : Byte), i < 8 → b ≠ footerMagic.getD i 0 →
      lastBytes 8 S = footerMagic.set i b →
      main c fs selfPath args faults = mainCLI c fs selfPath args faults) := by
  have hid := identityResolver_eq S hlen
  have hstub : lastBytes 8 S = footerMagic →
      main c fs selfPath args faults = mainStub c fs selfPath S S.length faults.start := by
    intro h
    unfold main
    rw [if_pos h.symm] at hid
    simp only [hS, hid]
  have hcli : lastBytes 8 S ≠ footerMagic →
      identityResolver S S.length = Except.ok Mode.packer ∧
      main c fs selfPath args faults = mainCLI c fs selfPath args faults := by
    intro h
    have h2 : ¬ footerMagic = lastBytes 8 S := fun e => h e.symm
    rw [if_neg h2] at hid
    refine ⟨hid, ?_⟩
    unfold main
    simp only [hS, hid]
  refine ⟨?_, hstub, hcli, ?_⟩
  · rw [hid]
    constructor
    · intro h
      by_cases e : footerMagic = lastBytes 8 S
      · exact e.symm
      · rw [if_neg e] at h
        cases h
    · intro h
      rw [if_pos h.symm]
  · intro i b hi hb h
    apply (hcli _).2
    rw [h]
    exact footerMagic_set_ne i b hi hb

theorem main_stub_iff_magic_witness :
    main storeCompression demoFS "/bin/gopacker" ["/t/a"] Faults.none
      = mainCLI storeCompression demoFS "/bin/gopacker" ["/t/a"] Faults.none ∧
    main storeCompression bareMagicFS "/s" [] Faults.none
      = mainStub storeCompression bareMagicFS "/s" footerMagic footerMagic.length
          Faults.none.start ∧
    main storeCompression nearMissFS "/s" [] Faults.none
      = mainCLI storeCompression nearMissFS "/s" [] Faults.none :=
  ⟨((main_stub_iff_magic storeCompression demoFS "/bin/gopacker" ["/t/a"] Faults.none
      [1, 2, 3, 4, 5, 6, 7, 8, 9] (by decide) (by decide)).2.2.1 (by decide)).2,
    (main_stub_iff_magic storeCompression bareMagicFS "/s" [] Faults.none
      footerMagic (by decide) (by decide)).2.1 (by decide),
    (main_stub_iff_magic storeCompression nearMissFS "/s" [] Faults.none
      [0x4C, 0x41, 0x4C, 0x41, 0x4C, 0x41, 0x4C, 0x42] (by decide) (by decide)).2.2.2
        7 0x42 (by decide) (by decide) (by decide)⟩

/-- C4, as stated, fails: with a 7-byte self image the run ends in
`log.Fatal("failed seeking magic")` and packs nothing, although `mainCLI` on
the same input would have packed the target. -/
theorem main_short_image_counterexample :
    (main storeCompression shortSelfFS "/bin/gopacker" ["/t/a"] Faults.none).exit
        = Exit.fatal "failed seeking magic" ∧
    (main storeCompression shortSelfFS "/bin/gopacker" ["/t/a"] Faults.none).fs "/t/a.packed"
        = none ∧
    (mainCLI storeCompression shortSelfFS "/bin/gopacker" ["/t/a"] Faults.none).exit
        = Exit.ok := by
  decide

/-- C4, amended (undersized self image): for a self image shorter than 8 bytes
the seek to `size - 8` is rejected and `main` ends in
`log.Fatal("failed seeking magic")`; neither mode runs and the file system is
unchanged. -/
theorem main_short_image_fatal (c : Compression) (fs : FS) (selfPath : String)
    (args : List String) (faults : Faults) (S : List Byte)
    (hS : fs selfPath = some (Node.file S)) (hlen : S.length < 8) :
    main c fs selfPath args faults = ⟨Exit.fatal "failed seeking magic", fs, [], none⟩ := by
  unfold main
  simp only [hS, identityResolver_short S hlen]

theorem main_short_image_fatal_witness :
    main storeCompression shortSelfFS "/bin/gopacker" ["/t/a"] Faults.none
      = ⟨Exit.fatal "failed seeking magic", shortSelfFS, [], none⟩ :=
  main_short_image_fatal storeCompression shortSelfFS "/bin/gopacker" ["/t/a"] Faults.none
    [1, 2, 3, 4, 5, 6, 7] (by decide) (by decide)

/-! ## File-system facts -/

theorem FS.write_same (fs : FS) (p : String) (n : Node) : (fs.write p n) p = some n := by
  show (fs.write p n).store ((fs.write p n).resolve p) = some n
  unfold FS.write
  simp only [if_true]

theorem FS.write_other (fs : FS) (p q : String) (n : Node) (h : ¬ fs.sameFile q p) :
    (fs.write p n) q = fs q := by
  show (fs.write p n).store ((fs.write p n).resolve q) = fs.store (fs.resolve q)
  unfold FS.write
  have h2 : ¬ fs.resolve q = fs.resolve p := h
  simp only [h2, if_false]

theorem FS.write_write (fs : FS) (p : String) (n m : Node) :
    (fs.write p n).write p m = fs.write p m := by
  unfold FS.write
  simp only [FS.mk.injEq, true_and]
  funext k
  by_cases h : k = fs.resolve p <;> simp only [h, if_true, if_false]

theorem FS.get_congr (fs : FS) (p q : String) (h : fs.sameFile p q) : fs p = fs q := by
  show fs.store (fs.resolve p) = fs.store (fs.resolve q)
  rw [show fs.resolve p = fs.resolve q from h]

theorem FS.agreeOff_refl (fs : FS) (p : String) : fs.agreeOff fs p :=
  ⟨rfl, fun _ _ => rfl⟩

theorem FS.agreeOff_write (fs fs2 : FS) (p : String) (n : Node) (h : fs.agreeOff fs2 p) :
    fs.agreeOff (fs2.write p n) p := by
  refine ⟨h.1, ?_⟩
  intro k hk
  show (if k = fs2.resolve p then some n else fs2.store k) = fs.store k
  rw [h.1, if_neg hk]
  exact h.2 k hk

theorem FS.agreeOff_get (fs fs2 : FS) (p q : String) (h : fs.agreeOff fs2 p)
    (hq : ¬ fs.sameFile q p) : fs2 q = fs q := by
  show fs2.store (fs2.resolve q) = fs.store (fs.resolve q)
  rw [h.1]
  exact h.2 _ hq

/-- Without links two paths name one file only when they are the same path. -/
theorem FS.plain_sameFile (store : String → Option Node) (p q : String) :
    (FS.plain store).sameFile p q ↔ p = q :=
  Iff.rfl

/-- Without links the output path never names the target. -/
theorem FS.plain_target_not_packed (store : String → Option Node) (target : String) :
    ¬ (FS.plain store).sameFile target (target ++ packedExt) :=
  target_ne_packed target

/-! ## Packer: the steps of a run -/

theorem written_of_not_hit (data : List Byte) (fault : Option Nat)
    (h : faultHits data fault = false) : written data fault = data := by
  cases fault with
  | none => rfl
  | some k =>
    simp only [faultHits, decide_eq_false_iff_not, not_lt] at h
    simp only [written]
    exact List.take_of_length_le h

theorem written_initial (data : List Byte) (fault : Option Nat) :
    written data fault <+: data := by
  cases fault with
  | none => exact List.prefix_refl data
  | some k => exact List.take_prefix k data

theorem openReader_file (fs : FS) (p : String) (d : List Byte)
    (h : fs p = some (Node.file d)) : openReader fs p = some (Except.ok d) := by
  unfold openReader
  simp only [h]

/-- The stub copy from the running binary to another file that is no directory. -/
theorem copyFile_eq (fs : FS) (src dst : String) (fault : Option Nat) (S : List Byte)
    (hS : fs src = some (Node.file S)) (hout : fs dst ≠ some Node.dir)
    (hne : ¬ fs.sameFile src dst) :
    copyFile fs src src dst fault =
      (if faultHits S fault then some "write error" else none,
        fs.write dst (Node.file (written S fault))) := by
  unfold copyFile
  simp only [hS]
  have hbusy : ¬ fs.sameFile dst src := fun h => hne h.symm
  have hr : openReader (fs.write dst (Node.file [])) src = some (Except.ok S) := by
    apply openReader_file
    rw [FS.write_other _ _ _ _ hne]
    exact hS
  cases hd : fs dst with
  | none => simp only [hbusy, if_false, hr, FS.write_write]
  | some n =>
    cases n with
    | dir => exact absurd hd hout
    | file x => simp only [hbusy, if_false, hr, FS.write_write]

theorem copyFile_frame (fs : FS) (running src dst : String) (fault : Option Nat) :
    fs.agreeOff (copyFile fs running src dst fault).2 dst := by
  unfold copyFile
  split
  · exact FS.agreeOff_refl fs dst
  · exact FS.agreeOff_refl fs dst
  · split
    · exact FS.agreeOff_refl fs dst
    · split
      · exact FS.agreeOff_refl fs dst
      · dsimp only
        split
        · exact FS.agreeOff_write _ _ _ _ (FS.agreeOff_write _ _ _ _ (FS.agreeOff_refl fs dst))
        · exact FS.agreeOff_write _ _ _ _ (FS.agreeOff_refl fs dst)
        · exact FS.agreeOff_write _ _ _ _ (FS.agreeOff_refl fs dst)

/-- The open for writing is refused when the destination is the running binary. -/
theorem copyFile_busy (fs : FS) (running src dst : String) (fault : Option Nat)
    (h : fs.sameFile dst running) :
    (copyFile fs running src dst fault).1 ≠ none ∧ (copyFile fs running src dst fault).2 = fs := by
  unfold copyFile
  split
  · exact ⟨by simp, rfl⟩
  · exact ⟨by simp, rfl⟩
  · split
    · exact ⟨by simp, rfl⟩
    · simp only [h, if_true]
      exact ⟨by simp, trivial⟩

theorem copyFile_dst_dir (fs : FS) (running src dst : String) (fault : Option Nat)
    (hd : fs dst = some Node.dir) :
    (copyFile fs running src dst fault).1 ≠ none ∧ (copyFile fs running src dst fault).2 = fs := by
  unfold copyFile
  split
  · exact ⟨by simp, rfl⟩
  · exact ⟨by simp, rfl⟩
  · simp only [hd]
    exact ⟨by simp, trivial⟩

theorem appendToFile_eq (c : Compression) (fs : FS) (running dst : String) (d old : List Byte)
    (compress : Bool) (fault : Option Nat) (hdst : fs dst = some (Node.file old))
    (hbusy : ¬ fs.sameFile dst running) :
    appendToFile c fs running dst (Except.ok d) compress fault =
      (if faultHits (if compress then c.compress d else d) fault then Except.error "write error"
        else Except.ok (wrapInt64 (written (if compress then c.compress d else d) fault).length),
       fs.write dst (Node.file (old ++ written (if compress then c.compress d else d) fault))) := by
  unfold appendToFile
  simp only [hdst, hbusy, if_false]
  by_cases h : faultHits (if compress then c.compress d else d) fault = true <;>
    simp only [h, if_true, if_false, Bool.false_eq_true]

theorem appendToFile_frame (c : Compression) (fs : FS) (running dst : String) (input : Reader)
    (compress : Bool) (fault : Option Nat) :
    fs.agreeOff (appendToFile c fs running dst input compress fault).2 dst := by
  unfold appendToFile
  split
  · exact FS.agreeOff_refl fs dst
  · exact FS.agreeOff_refl fs dst
  · split
    · exact FS.agreeOff_refl fs dst
    · split
      · exact FS.agreeOff_refl fs dst
      · dsimp only
        split <;> split <;> exact FS.agreeOff_write _ _ _ _ (FS.agreeOff_refl fs dst)

/-- Appending from an input that cannot be read ends in an error. -/
theorem appendToFile_unreadable (c : Compression) (fs : FS) (running dst e : String)
    (compress : Bool) (fault : Option Nat) :
    ∃ msg : String,
      (appendToFile c fs running dst (Except.error e) compress fault).1 = Except.error msg := by
  unfold appendToFile
  split
  · exact ⟨_, rfl⟩
  · exact ⟨_, rfl⟩
  · split
    · exact ⟨_, rfl⟩
    · exact ⟨_, rfl⟩

/-- A pack run on a regular target, where the output path names neither the
running binary nor the target: the first write that is cut short ends the run;
otherwise the output is `image ++ payload ++ length field ++ magic`. -/
theorem mainCLI_run (c : Compression) (fs : FS) (selfPath target : String)
    (rest : List String) (faults : Faults) (S F : List Byte)
    (hS : fs selfPath = some (Node.file S)) (hF : fs target = some (Node.file F))
    (hout : fs (target ++ packedExt) ≠ some Node.dir)
    (hne : ¬ fs.sameFile selfPath (target ++ packedExt))
    (hnt : ¬ fs.sameFile target (target ++ packedExt)) :
    mainCLI c fs selfPath (target :: rest) faults =
      if faultHits S faults.copy then
        ⟨Exit.fatal "failed copying stub",
          fs.write (target ++ packedExt) (Node.file (written S faults.copy)), [], none⟩
      else if faultHits (c.compress F) faults.payload then
        ⟨Exit.fatal "failed appending stub",
          fs.write (target ++ packedExt)
            (Node.file (S ++ written (c.compress F) faults.payload)),
          [], none⟩
      else if faultHits (putUint64 (c.compress F).length) faults.len then
        ⟨Exit.fatal "failed appending len",
          fs.write (target ++ packedExt)
            (Node.file (S ++ c.compress F
              ++ written (putUint64 (c.compress F).length) faults.len)),
          [], none⟩
      else if faultHits footerMagic faults.magic then
        ⟨Exit.fatal "failed appending magic",
          fs.write (target ++ packedExt)
            (Node.file (S ++ c.compress F
              ++ putUint64 (c.compress F).length ++ written footerMagic faults.magic)),
          [], none⟩
      else
        ⟨Exit.ok,
          fs.write (target ++ packedExt)
            (Node.file (S ++ c.compress F ++ putUint64 (c.compress F).length ++ footerMagic)),
          [], none⟩ := by
  have hbusy : ∀ n : Node, ¬ (fs.write (target ++ packedExt) n).sameFile
      (target ++ packedExt) selfPath := fun _ h => hne h.symm
  unfold mainCLI
  simp only [hF]
  rw [copyFile_eq fs selfPath (target ++ packedExt) faults.copy S hS hout hne]
  by_cases h1 : faultHits S faults.copy = true
  · simp only [h1, if_true]
  · simp only [h1, Bool.false_eq_true, if_false]
    rw [written_of_not_hit _ _ (Bool.eq_false_iff.mpr h1)]
    have hT : openReader (fs.write (target ++ packedExt) (Node.file S)) target
        = some (Except.ok F) := by
      apply openReader_file
      rw [FS.write_other _ _ _ _ hnt]
      exact hF
    simp only [hT]
    rw [appendToFile_eq c _ selfPath (target ++ packedExt) F _ true faults.payload
      (FS.write_same _ _ _) (hbusy _)]
    simp only [if_true, FS.write_write]
    by_cases h2 : faultHits (c.compress F) faults.payload = true
    · simp only [h2, if_true]
    · simp only [h2, Bool.false_eq_true, if_false]
      rw [written_of_not_hit _ _ (Bool.eq_false_iff.mpr h2)]
      rw [toUint64_wrapInt64, putUint64_mod]
      rw [appendToFile_eq c _ selfPath (target ++ packedExt) _ _ false faults.len
        (FS.write_same _ _ _) (hbusy _)]
      simp only [if_false, Bool.false_eq_true, FS.write_write]
      by_cases h3 : faultHits (putUint64 (c.compress F).length) faults.len = true
      · simp only [h3, if_true]
      · simp only [h3, Bool.false_eq_true, if_false]
        rw [written_of_not_hit _ _ (Bool.eq_false_iff.mpr h3)]
        rw [appendToFile_eq c _ selfPath (target ++ packedExt) _ _ false faults.magic
          (FS.write_same _ _ _) (hbusy _)]
        simp only [if_false, Bool.false_eq_true, FS.write_write]
        by_cases h4 : faultHits footerMagic faults.magic = true
        · simp only [h4, if_true]
        · simp only [h4, Bool.false_eq_true, if_false]
          rw [written_of_not_hit _ _ (Bool.eq_false_iff.mpr h4)]

theorem FS.agreeOff_step (fs fs1 fs2 : FS) (p : String) (h1 : fs.agreeOff fs1 p)
    (h2 : fs1.agreeOff fs2 p) : fs.agreeOff fs2 p := by
  refine ⟨h2.1.trans h1.1, ?_⟩
  intro k hk
  have hk1 : k ≠ fs1.resolve p := by rw [h1.1]; exact hk
  exact (h2.2 k hk1).trans (h1.2 k hk)

/-- A pack run changes no file other than the one `<target>.packed` names. -/
theorem mainCLI_frame (c : Compression) (fs : FS) (selfPath target : String)
    (rest : List String) (faults : Faults) :
    fs.agreeOff (mainCLI c fs selfPath (target :: rest) faults).fs (target ++ packedExt) := by
  unfold mainCLI
  dsimp only
  split
  · exact FS.agreeOff_refl fs _
  · have hc := copyFile_frame fs selfPath selfPath (target ++ packedExt) faults.copy
    split
    · rename_i h
      rw [h] at hc
      exact hc
    · rename_i fs1 h
      rw [h] at hc
      have e1 : fs.agreeOff fs1 (target ++ packedExt) := hc
      split
      · exact e1
      · rename_i rd _
        have ha := appendToFile_frame c fs1 selfPath (target ++ packedExt) rd true faults.payload
        split
        · rename_i fs2 h2
          rw [h2] at ha
          exact FS.agreeOff_step _ _ _ _ e1 ha
        · rename_i n fs2 h2
          rw [h2] at ha
          have e2 : fs.agreeOff fs2 (target ++ packedExt) := FS.agreeOff_step _ _ _ _ e1 ha
          have hb := appendToFile_frame c fs2 selfPath (target ++ packedExt)
            (Except.ok (putUint64 (toUint64 n))) false faults.len
          split
          · rename_i fs3 h3
            rw [h3] at hb
            exact FS.agreeOff_step _ _ _ _ e2 hb
          · rename_i fs3 h3
            rw [h3] at hb
            have e3 : fs.agreeOff fs3 (target ++ packedExt) := FS.agreeOff_step _ _ _ _ e2 hb
            have hm := appendToFile_frame c fs3 selfPath (target ++ packedExt)
              (Except.ok footerMagic) false faults.magic
            split
            · rename_i fs4 h4
              rw [h4] at hm
              exact FS.agreeOff_step _ _ _ _ e3 hm
            · rename_i fs4 h4
              rw [h4] at hm
              exact FS.agreeOff_step _ _ _ _ e3 hm

/-- A pack run whose stub copy is refused or fails at once changes nothing. -/
theorem mainCLI_copy_refused (c : Compression) (fs : FS) (selfPath target : String)
    (rest : List String) (faults : Faults)
    (h : (copyFile fs selfPath selfPath (target ++ packedExt) faults.copy).1 ≠ none ∧
      (copyFile fs selfPath selfPath (target ++ packedExt) faults.copy).2 = fs) :
    (mainCLI c fs selfPath (target :: rest) faults).fs = fs ∧
    (mainCLI c fs selfPath (target :: rest) faults).exit ≠ Exit.ok := by
  unfold mainCLI
  dsimp only
  split
  · exact ⟨rfl, by simp⟩
  · split
    · rename_i h2
      rw [h2] at h
      exact ⟨h.2, by simp⟩
    · rename_i h2
      rw [h2] at h
      exact absurd rfl h.1

/-- A pack run whose output path is a directory changes nothing and fails. -/
theorem mainCLI_out_dir (c : Compression) (fs : FS) (selfPath target : String)
    (rest : List String) (faults : Faults)
    (hd : fs (target ++ packedExt) = some Node.dir) :
    (mainCLI c fs selfPath (target :: rest) faults).fs = fs ∧
    (mainCLI c fs selfPath (target :: rest) faults).exit ≠ Exit.ok :=
  mainCLI_copy_refused c fs selfPath target rest faults
    (copyFile_dst_dir fs selfPath selfPath (target ++ packedExt) faults.copy hd)

/-- A pack run whose output path names the running binary changes nothing and
fails. -/
theorem mainCLI_out_busy (c : Compression) (fs : FS) (selfPath target : String)
    (rest : List String) (faults : Faults)
    (hb : fs.sameFile (target ++ packedExt) selfPath) :
    (mainCLI c fs selfPath (target :: rest) faults).fs = fs ∧
    (mainCLI c fs selfPath (target :: rest) faults).exit ≠ Exit.ok :=
  mainCLI_copy_refused c fs selfPath target rest faults
    (copyFile_busy fs selfPath selfPath (target ++ packedExt) faults.copy hb)

/-- Without write errors a pack run on a regular target succeeds. -/
theorem mainCLI_none_ok (c : Compression) (fs : FS) (selfPath target : String)
    (rest : List String) (S F : List Byte)
    (hS : fs selfPath = some (Node.file S)) (hF : fs target = some (Node.file F))
    (hout : fs (target ++ packedExt) ≠ some Node.dir)
    (hne : ¬ fs.sameFile selfPath (target ++ packedExt))
    (hnt : ¬ fs.sameFile target (target ++ packedExt)) :
    mainCLI c fs selfPath (target :: rest) Faults.none =
      ⟨Exit.ok,
        fs.write (target ++ packedExt)
          (Node.file (S ++ c.compress F ++ putUint64 (c.compress F).length ++ footerMagic)),
        [], none⟩ := by
  rw [mainCLI_run c fs selfPath target rest Faults.none S F hS hF hout hne hnt]
  simp only [Faults.none, faultHits, Bool.false_eq_true, if_false]

/-- The file system after any successful pack run on a regular target. -/
theorem mainCLI_ok_fs (c : Compression) (fs : FS) (selfPath target : String)
    (rest : List String) (faults : Faults) (S F : List Byte)
    (hS : fs selfPath = some (Node.file S)) (hF : fs target = some (Node.file F))
    (hne : ¬ fs.sameFile selfPath (target ++ packedExt))
    (hnt : ¬ fs.sameFile target (target ++ packedExt))
    (hok : (mainCLI c fs selfPath (target :: rest) faults).exit = Exit.ok) :
    (mainCLI c fs selfPath (target :: rest) faults).fs =
      fs.write (target ++ packedExt)
        (Node.file (S ++ c.compress F ++ putUint64 (c.compress F).length ++ footerMagic)) := by
  by_cases hout : fs (target ++ packedExt) = some Node.dir
  · exact absurd hok (mainCLI_out_dir c fs selfPath target rest faults hout).2
  · rw [mainCLI_run c fs selfPath target rest faults S F hS hF hout hne hnt] at hok ⊢
    split_ifs at hok ⊢
    rfl

theorem packer_mode_length (S : List Byte)
    (h : identityResolver S S.length = Except.ok Mode.packer) : 8 ≤ S.length := by
  by_contra hlt
  rw [identityResolver_short S (by omega)] at h
  cases h

/-! ## Packer: layout, frame and trailer of the output -/

/-- C2 (packed file layout): with the self image `S` and the target content `F`
in files other than the one the output path names, whatever is at
`<target>.packed` before, a pack run without write errors succeeds (unless that
path is a directory), and every successful pack run leaves `<target>.packed` with
content exactly `S ++ compress F ++ LE64 (len (compress F)) ++ "LALALALA"`. -/
theorem mainCLI_packed_layout (c : Compression) (fs : FS) (selfPath target : String)
    (rest : List String) (S F : List Byte)
    (hS : fs selfPath = some (Node.file S)) (hF : fs target = some (Node.file F))
    (hne : ¬ fs.sameFile selfPath (target ++ packedExt))
    (hnt : ¬ fs.sameFile target (target ++ packedExt)) :
    (fs (target ++ packedExt) ≠ some Node.dir →
      (mainCLI c fs selfPath (target :: rest) Faults.none).exit = Exit.ok) ∧
    (∀ faults : Faults, (mainCLI c fs selfPath (target :: rest) faults).exit = Exit.ok →
      (mainCLI c fs selfPath (target :: rest) faults).fs (target ++ packedExt) =
        some (Node.file
          (S ++ c.compress F ++ putUint64 (c.compress F).length ++ footerMagic))) := by
  constructor
  · intro hout
    rw [mainCLI_none_ok c fs selfPath target rest S F hS hF hout hne hnt]
  · intro faults hok
    rw [mainCLI_ok_fs c fs selfPath target rest faults S F hS hF hne hnt hok, FS.write_same]

theorem mainCLI_packed_layout_witness :
    (mainCLI storeCompression demoFS "/bin/gopacker" ["/t/a"] Faults.none).exit = Exit.ok ∧
    (mainCLI storeCompression demoFS "/bin/gopacker" ["/t/a"] Faults.none).fs "/t/a.packed" =
      some (Node.file ([1, 2, 3, 4, 5, 6, 7, 8, 9] ++ [10, 20, 30]
        ++ [3, 0, 0, 0, 0, 0, 0, 0] ++ footerMagic)) :=
  have h := mainCLI_packed_layout storeCompression demoFS "/bin/gopacker" "/t/a" []
    [1, 2, 3, 4, 5, 6, 7, 8, 9] [10, 20, 30] (by decide) (by decide) (by decide) (by decide)
  ⟨h.1 (by decide), h.2 Faults.none (h.1 (by decide))⟩

/-- C7, as stated, fails: in `linkFS` the output path `/t/a.packed` is a symbolic
link to the target `/t/a`.  The stub copy opens it with `O_CREATE|O_TRUNC`
(no `O_EXCL`, no `O_NOFOLLOW`) and overwrites the target with the self image:
already after `copyFile` the target holds the 9 bytes of the binary, and after
the run its content differs from its content before. -/
theorem mainCLI_frame_counterexample :
    linkFS "/t/a" = some (Node.file [10, 20, 30]) ∧
    (copyFile linkFS "/bin/gopacker" "/bin/gopacker" ("/t/a" ++ packedExt) none).2 "/t/a"
      = some (Node.file [1, 2, 3, 4, 5, 6, 7, 8, 9]) ∧
    (main storeCompression linkFS "/bin/gopacker" ["/t/a"] Faults.none).fs "/t/a"
      ≠ linkFS "/t/a" := by
  decide

/-- C7, amended (packer frame): for every self path, target path, file-system
state and outcome of the writes, a pack run changes no file other than the one
that `<target>.packed` names: every path that does not name that file has after
the run what it had before.  The target file is left as it was whenever
`<target>.packed` does not name the target file itself, and the Self Image file
is always left as it was (when `<target>.packed` names the running binary the
open for writing is refused). -/
theorem mainCLI_frame_paths (c : Compression) (fs : FS) (selfPath target : String)
    (rest : List String) (faults : Faults) :
    (∀ q : String, ¬ fs.sameFile q (target ++ packedExt) →
      (mainCLI c fs selfPath (target :: rest) faults).fs q = fs q) ∧
    (¬ fs.sameFile target (target ++ packedExt) →
      (mainCLI c fs selfPath (target :: rest) faults).fs target = fs target) ∧
    (mainCLI c fs selfPath (target :: rest) faults).fs selfPath = fs selfPath := by
  have hfr := mainCLI_frame c fs selfPath target rest faults
  refine ⟨fun q hq => FS.agreeOff_get _ _ _ _ hfr hq,
    fun h => FS.agreeOff_get _ _ _ _ hfr h, ?_⟩
  by_cases hb : fs.sameFile selfPath (target ++ packedExt)
  · rw [(mainCLI_out_busy c fs selfPath target rest faults hb.symm).1]
  · exact FS.agreeOff_get _ _ _ _ hfr hb

theorem mainCLI_frame_paths_witness :
    (mainCLI storeCompression demoFS "/bin/gopacker" ["/t/a"] Faults.none).fs "/t/other"
      = demoFS "/t/other" ∧
    (mainCLI storeCompression demoFS "/bin/gopacker" ["/t/a"] Faults.none).fs "/t/a"
      = demoFS "/t/a" ∧
    (mainCLI storeCompression linkFS "/bin/gopacker" ["/t/a"] Faults.none).fs "/bin/gopacker"
      = linkFS "/bin/gopacker" :=
  ⟨(mainCLI_frame_paths storeCompression demoFS "/bin/gopacker" "/t/a" [] Faults.none).1
      "/t/other" (by decide),
    (mainCLI_frame_paths storeCompression demoFS "/bin/gopacker" "/t/a" [] Faults.none).2.1
      (by decide),
    (mainCLI_frame_paths storeCompression linkFS "/bin/gopacker" "/t/a" [] Faults.none).2.2⟩

/-! ## Stub: locating and reading the payload -/

/-- The 8-byte length field of a content of at least 16 bytes. -/
theorem stubLocate_eq (data : List Byte) (hlen : 16 ≤ data.length) :
    stubLocate data data.length =
      Except.ok
        (wrapInt64 ((data.length : Int) - 8 - 8
            - wrapInt64 (uint64LE ((data.drop (data.length - 16)).take 8))),
          wrapInt64 (uint64LE ((data.drop (data.length - 16)).take 8))) := by
  unfold stubLocate
  dsimp only
  have hs : ((data.length : Int) - ((footerMagic.length : Nat) : Int)
      - (((List.replicate 8 (0 : Byte)).length : Nat) : Int))
      = ((data.length - 16 : Nat) : Int) := by
    rw [footerMagic_length, List.length_replicate]; omega
  rw [hs, seekStart_nonneg]
  have hr : fileRead data (data.length - 16) (List.replicate 8 0)
      = Except.ok ((data.drop (data.length - 16)).take 8) := by
    rw [fileRead_exact]
    · rw [List.length_replicate]
    · rw [List.length_replicate]; omega
    · rw [List.length_replicate]; omega
  have hl : ((data.drop (data.length - 16)).take 8).length = 8 := by
    rw [List.length_take, List.length_drop]; omega
  simp only [hr, hl, footerMagic_length]
  rfl

theorem stubLocate_short (data : List Byte) (hlen : data.length < 16) :
    stubLocate data data.length = Except.error "failed seeking length" := by
  unfold stubLocate
  dsimp only
  rw [seekStart_neg]
  rw [footerMagic_length, List.length_replicate]; omega

theorem packed_length_field (A p L M : List Byte) (hL : L.length = 8) (hM : M.length = 8) :
    ((A ++ p ++ L ++ M).drop ((A ++ p ++ L ++ M).length - 16)).take 8 = L := by
  have h1 : (A ++ p ++ L ++ M).length - 16 = (A ++ p).length := by
    simp only [List.length_append, hL, hM]; omega
  rw [h1, List.append_assoc (A ++ p) L M, List.drop_left, ← hL, List.take_left]

/-- On a content laid out as `A ++ p ++ LE64 (len p) ++ magic` whose size fits
an `int64`, the stub computes the offset `len A` and the length `len p`. -/
theorem stubLocate_packed (A p : List Byte)
    (hsize : A.length + p.length + 16 < 9223372036854775808) :
    stubLocate (A ++ p ++ putUint64 p.length ++ footerMagic)
        (A ++ p ++ putUint64 p.length ++ footerMagic).length
      = Except.ok ((A.length : Int), (p.length : Int)) := by
  have hlen : (A ++ p ++ putUint64 p.length ++ footerMagic).length
      = A.length + p.length + 16 := by
    simp only [List.length_append, putUint64_length, footerMagic_length]
  rw [stubLocate_eq _ (by omega),
    packed_length_field A p _ _ (putUint64_length _) footerMagic_length,
    uint64LE_putUint64, hlen]
  have h1 : wrapInt64 ((p.length % 18446744073709551616 : Nat) : Int) = (p.length : Int) := by
    unfold wrapInt64; omega
  rw [h1]
  have h2 : wrapInt64 (((A.length + p.length + 16 : Nat) : Int) - 8 - 8 - (p.length : Int))
      = (A.length : Int) := by
    unfold wrapInt64; omega
  rw [h2]

theorem sectionLimit_packed (a n : Nat) (hsize : a + n < 9223372036854775808) :
    sectionLimit (a : Int) (n : Int) = ((a + n : Nat) : Int) := by
  unfold sectionLimit
  have h1 : (a : Int) ≤ wrapInt64 (maxInt64 - (n : Int)) := by
    unfold wrapInt64 maxInt64; omega
  have h2 : wrapInt64 ((n : Int) + (a : Int)) = ((a + n : Nat) : Int) := by
    unfold wrapInt64; omega
  simp only [h1, if_true, h2]

theorem sectionPanics_packed (a n : Nat) (hsize : a + n < 9223372036854775808) :
    sectionPanics (a : Int) (n : Int) = false := by
  unfold sectionPanics
  rw [sectionLimit_packed a n hsize]
  have h : ¬ ((a : Int) < ((a + n : Nat) : Int) ∧
      wrapInt64 (((a + n : Nat) : Int) - (a : Int)) < 0) := by
    unfold wrapInt64; omega
  simp only [h, decide_False]

/-- The section reader over `[len A, len A + len p)` of `A ++ p ++ rest`
delivers exactly `p`. -/
theorem sectionReadAll_packed (A p R : List Byte)
    (hsize : A.length + p.length < 9223372036854775808) :
    sectionReadAll (A ++ p ++ R) (A.length : Int) (p.length : Int) = Except.ok p := by
  unfold sectionReadAll
  rw [sectionLimit_packed A.length p.length hsize]
  dsimp only
  have h3 : ¬ ((A.length : Int) < 0) := by omega
  have hm : wrapInt64 (((A.length + p.length : Nat) : Int) - (A.length : Int))
      = (p.length : Int) := by
    unfold wrapInt64; omega
  have h5 : ((A ++ p ++ R).drop A.length).take p.length = p := by
    rw [List.append_assoc, List.drop_left, List.take_left]
  by_cases h0 : ((A.length + p.length : Nat) : Int) ≤ (A.length : Int)
  · have : p.length = 0 := by omega
    simp only [h0, if_true]
    rw [List.length_eq_zero.mp this]
  · have h6 : ¬ ((p.length : Int) < 0) := by omega
    simp only [h0, if_false, hm, h6, h3, Int.toNat_ofNat, h5]

theorem writeFile_ok (fs : FS) (running p : String) (buf : List Byte)
    (h : fs p ≠ some Node.dir) (hb : ¬ fs.sameFile p running) :
    writeFile fs running p buf = some (fs.write p (Node.file buf)) := by
  unfold writeFile
  split
  · rename_i hd
    exact absurd hd h
  · simp only [hb, if_false]

theorem packed_is_stub (A p L : List Byte) :
    identityResolver (A ++ p ++ L ++ footerMagic) (A ++ p ++ L ++ footerMagic).length
      = Except.ok Mode.stub := by
  rw [identityResolver_eq _ (by simp only [List.length_append, footerMagic_length]; omega),
    lastBytes_append_right 8 _ _ footerMagic_length]
  simp only [if_true]

/-- A run of a binary laid out as `A ++ p ++ LE64 (len p) ++ magic`: stub mode
decompresses `p` and writes the result to `<self>_unpacked.exe`; then it starts
the file, or ends in `log.Fatal` when the start fails. -/
theorem main_on_packed (c : Compression) (g : FS) (p : String) (args : List String)
    (faults : Faults) (A pl F : List Byte)
    (hp : g p = some (Node.file (A ++ pl ++ putUint64 pl.length ++ footerMagic)))
    (hsize : A.length + pl.length + 16 < 9223372036854775808)
    (hd : c.decompress pl = some F)
    (htmp : g (p ++ "_unpacked.exe") ≠ some Node.dir)
    (hbusy : ¬ g.sameFile (p ++ "_unpacked.exe") p) :
    main c g p args faults =
      if faults.start then
        ⟨Exit.fatal "failed running unpacked executable",
          g.write (p ++ "_unpacked.exe") (Node.file F), [], none⟩
      else
        ⟨Exit.ok, g.write (p ++ "_unpacked.exe") (Node.file F), [],
          some (p ++ "_unpacked.exe")⟩ := by
  unfold main
  simp only [hp, packed_is_stub]
  unfold mainStub
  simp only [stubLocate_packed A pl hsize]
  have hv : sectionReadAll (A ++ pl ++ putUint64 pl.length ++ footerMagic)
      (A.length : Int) (pl.length : Int) = Except.ok pl := by
    rw [List.append_assoc (A ++ pl)]
    exact sectionReadAll_packed A pl _ (by omega)
  simp only [sectionPanics_packed A.length pl.length (by omega), Bool.false_eq_true, if_false,
    hv, hd, writeFile_ok g p _ F htmp hbusy]

/-! ## Round trip, trailer invariant and payload offset -/

/-- C1 (round trip): if decompression inverts compression, the self image `S`
has at least 8 bytes and does not end with the magic, the target is a regular
file with content `F`, and the packed file's size fits an `int64` (so the
compressed length is below 2^63), then the pack run succeeds, and every run of
the file it produced goes to stub mode and writes to the temporary executable
exactly the bytes `F`; it then starts that file and ends normally, or ends in
`log.Fatal("failed running unpacked executable")` when `cmd.Start()` fails.
(The output path names neither the running binary nor the target and is no
directory; the temporary path is no directory and does not name the packed
file.) -/
theorem pack_then_stub_roundtrip (c : Compression) (fs : FS) (selfPath target : String)
    (rest : List String) (S F : List Byte)
    (hdc : ∀ x : List Byte, c.decompress (c.compress x) = some x)
    (hS : fs selfPath = some (Node.file S))
    (hlen : 8 ≤ S.length) (hmagic : lastBytes 8 S ≠ footerMagic)
    (hF : fs target = some (Node.file F))
    (hsize : S.length + (c.compress F).length + 16 < 9223372036854775808)
    (hne : ¬ fs.sameFile selfPath (target ++ packedExt))
    (hnt : ¬ fs.sameFile target (target ++ packedExt))
    (hout : fs (target ++ packedExt) ≠ some Node.dir)
    (htmp : fs (target ++ packedExt ++ "_unpacked.exe") ≠ some Node.dir)
    (htmp2 : ¬ fs.sameFile (target ++ packedExt ++ "_unpacked.exe") (target ++ packedExt)) :
    (main c fs selfPath (target :: rest) Faults.none).exit = Exit.ok ∧
    ∀ (args2 : List String) (faults2 : Faults),
      (main c (main c fs selfPath (target :: rest) Faults.none).fs
          (target ++ packedExt) args2 faults2).fs (target ++ packedExt ++ "_unpacked.exe")
        = some (Node.file F) ∧
      (main c (main c fs selfPath (target :: rest) Faults.none).fs
          (target ++ packedExt) args2 faults2).exit
        = (if faults2.start then Exit.fatal "failed running unpacked executable"
            else Exit.ok) ∧
      (main c (main c fs selfPath (target :: rest) Faults.none).fs
          (target ++ packedExt) args2 faults2).spawned
        = (if faults2.start then none
            else some (target ++ packedExt ++ "_unpacked.exe")) := by
  rw [main_eq_mainCLI c fs selfPath (target :: rest) Faults.none S hS hlen hmagic,
    mainCLI_none_ok c fs selfPath target rest S F hS hF hout hne hnt]
  refine ⟨rfl, ?_⟩
  intro args2 faults2
  have htmp3 : (fs.write (target ++ packedExt)
      (Node.file (S ++ c.compress F ++ putUint64 (c.compress F).length ++ footerMagic)))
      (target ++ packedExt ++ "_unpacked.exe") ≠ some Node.dir := by
    rw [FS.write_other _ _ _ _ htmp2]
    exact htmp
  rw [main_on_packed c _ (target ++ packedExt) args2 faults2 S (c.compress F) F
    (FS.write_same _ _ _) hsize (hdc F) htmp3 htmp2]
  by_cases hst : faults2.start = true
  · simp only [hst, if_true]
    exact ⟨FS.write_same _ _ _, trivial, trivial⟩
  · simp only [hst, Bool.false_eq_true, if_false]
    exact ⟨FS.write_same _ _ _, trivial, trivial⟩

theorem pack_then_stub_roundtrip_witness :
    (main storeCompression demoFS "/bin/gopacker" ["/t/a"] Faults.none).exit = Exit.ok ∧
    (main storeCompression (main storeCompression demoFS "/bin/gopacker" ["/t/a"] Faults.none).fs
        ("/t/a" ++ packedExt) [] ⟨none, none, none, none, true⟩).fs
          ("/t/a" ++ packedExt ++ "_unpacked.exe")
      = some (Node.file [10, 20, 30]) ∧
    (main storeCompression (main storeCompression demoFS "/bin/gopacker" ["/t/a"] Faults.none).fs
        ("/t/a" ++ packedExt) [] ⟨none, none, none, none, true⟩).exit
      = Exit.fatal "failed running unpacked executable" ∧
    (main storeCompression (main storeCompression demoFS "/bin/gopacker" ["/t/a"] Faults.none).fs
        ("/t/a" ++ packedExt) [] ⟨none, none, none, none, true⟩).spawned = none :=
  have h := pack_then_stub_roundtrip storeCompression demoFS "/bin/gopacker" "/t/a" []
    [1, 2, 3, 4, 5, 6, 7, 8, 9] [10, 20, 30] (fun _ => rfl) (by decide) (by decide) (by decide)
    (by decide) (by decide) (by decide) (by decide) (by decide) (by decide) (by decide)
  ⟨h.1, h.2 [] ⟨none, none, none, none, true⟩⟩

/-- C8 (packed output is a valid stub): for a self image `S` accepted in packer
mode and a target content `F`, in files other than the one the output path
names, a pack run without write errors succeeds (unless the output path is a
directory), and the file `P` left by any successful pack run ends with the 8
magic bytes, is classified as a stub by the trailer check, is longer than 16
bytes, and its stored length field satisfies `payload_length + 8 + 8 <= len P`. -/
theorem mainCLI_output_valid_stub (c : Compression) (fs : FS) (selfPath target : String)
    (rest : List String) (S F : List Byte)
    (hS : fs selfPath = some (Node.file S)) (hF : fs target = some (Node.file F))
    (hmode : identityResolver S S.length = Except.ok Mode.packer)
    (hne : ¬ fs.sameFile selfPath (target ++ packedExt))
    (hnt : ¬ fs.sameFile target (target ++ packedExt)) :
    (fs (target ++ packedExt) ≠ some Node.dir →
      (mainCLI c fs selfPath (target :: rest) Faults.none).exit = Exit.ok) ∧
    (∀ faults : Faults, (mainCLI c fs selfPath (target :: rest) faults).exit = Exit.ok →
      ∃ P : List Byte,
        (mainCLI c fs selfPath (target :: rest) faults).fs (target ++ packedExt)
          = some (Node.file P) ∧
        lastBytes 8 P = footerMagic ∧
        identityResolver P P.length = Except.ok Mode.stub ∧
        16 < P.length ∧
        uint64LE ((P.drop (P.length - 16)).take 8) + 8 + 8 ≤ P.length) := by
  constructor
  · intro hout
    rw [mainCLI_none_ok c fs selfPath target rest S F hS hF hout hne hnt]
  · intro faults hok
    refine ⟨S ++ c.compress F ++ putUint64 (c.compress F).length ++ footerMagic, ?_, ?_, ?_, ?_, ?_⟩
    · rw [mainCLI_ok_fs c fs selfPath target rest faults S F hS hF hne hnt hok, FS.write_same]
    · exact lastBytes_append_right 8 _ _ footerMagic_length
    · exact packed_is_stub S (c.compress F) _
    · have := packer_mode_length S hmode
      simp only [List.length_append, putUint64_length, footerMagic_length]
      omega
    · rw [packed_length_field S (c.compress F) _ _ (putUint64_length _) footerMagic_length,
        uint64LE_putUint64]
      simp only [List.length_append, putUint64_length, footerMagic_length]
      omega

theorem mainCLI_output_valid_stub_witness :
    ∃ P : List Byte,
      (mainCLI storeCompression demoFS "/bin/gopacker" ["/t/a"] Faults.none).fs
          ("/t/a" ++ packedExt) = some (Node.file P) ∧
      lastBytes 8 P = footerMagic ∧
      identityResolver P P.length = Except.ok Mode.stub ∧
      16 < P.length ∧
      uint64LE ((P.drop (P.length - 16)).take 8) + 8 + 8 ≤ P.length :=
  have h := mainCLI_output_valid_stub storeCompression demoFS "/bin/gopacker" "/t/a" []
    [1, 2, 3, 4, 5, 6, 7, 8, 9] [10, 20, 30] (by decide) (by decide) (by rfl) (by decide)
    (by decide)
  h.2 Faults.none (h.1 (by decide))

/-- C9 (length invariant): for a self image `S` and a target content `F`, in
files other than the one the output path names, such that the packed file's
size fits an `int64` (so the compressed length is below 2^63): the stub copy
leaves `len S` bytes in the output, so the payload is appended from offset
`len S`; a pack run without write errors succeeds (unless the output path is a
directory); and on the file `P` of any successful pack run the stub computes `compressedOff = len S` and
`targetLen = len (compress F)`, and the bounded view
`[len S, len S + len (compress F))` holds exactly `compress F`. -/
theorem stub_offset_eq_image_length (c : Compression) (fs : FS) (selfPath target : String)
    (rest : List String) (S F : List Byte)
    (hS : fs selfPath = some (Node.file S)) (hF : fs target = some (Node.file F))
    (hne : ¬ fs.sameFile selfPath (target ++ packedExt))
    (hnt : ¬ fs.sameFile target (target ++ packedExt))
    (hsize : S.length + (c.compress F).length + 16 < 9223372036854775808) :
    (fs (target ++ packedExt) ≠ some Node.dir →
      (copyFile fs selfPath selfPath (target ++ packedExt) none).2 (target ++ packedExt)
          = some (Node.file S) ∧
      (mainCLI c fs selfPath (target :: rest) Faults.none).exit = Exit.ok) ∧
    (∀ faults : Faults, (mainCLI c fs selfPath (target :: rest) faults).exit = Exit.ok →
      ∃ P : List Byte,
        (mainCLI c fs selfPath (target :: rest) faults).fs (target ++ packedExt)
          = some (Node.file P) ∧
        stubLocate P P.length
          = Except.ok ((S.length : Int), ((c.compress F).length : Int)) ∧
        sectionReadAll P (S.length : Int) ((c.compress F).length : Int)
          = Except.ok (c.compress F) ∧
        (P.drop S.length).take (c.compress F).length = c.compress F) := by
  constructor
  · intro hout
    constructor
    · rw [copyFile_eq fs selfPath (target ++ packedExt) none S hS hout hne]
      dsimp only
      rw [FS.write_same]
      rfl
    · rw [mainCLI_none_ok c fs selfPath target rest S F hS hF hout hne hnt]
  · intro faults hok
    refine ⟨S ++ c.compress F ++ putUint64 (c.compress F).length ++ footerMagic, ?_, ?_, ?_, ?_⟩
    · rw [mainCLI_ok_fs c fs selfPath target rest faults S F hS hF hne hnt hok, FS.write_same]
    · exact stubLocate_packed S (c.compress F) hsize
    · rw [List.append_assoc (S ++ c.compress F)]
      exact sectionReadAll_packed S (c.compress F) _ (by omega)
    · rw [List.append_assoc (S ++ c.compress F), List.append_assoc, List.drop_left,
        List.take_left]

theorem stub_offset_eq_image_length_witness :
    ∃ P : List Byte,
      (mainCLI storeCompression demoFS "/bin/gopacker" ["/t/a"] Faults.none).fs
          ("/t/a" ++ packedExt) = some (Node.file P) ∧
      stubLocate P P.length = Except.ok ((9 : Int), (3 : Int)) ∧
      sectionReadAll P (9 : Int) (3 : Int) = Except.ok [10, 20, 30] ∧
      (P.drop 9).take 3 = [10, 20, 30] :=
  have h := stub_offset_eq_image_length storeCompression demoFS "/bin/gopacker" "/t/a" []
    [1, 2, 3, 4, 5, 6, 7, 8, 9] [10, 20, 30] (by decide) (by decide) (by decide) (by decide)
    (by decide)
  h.2 Faults.none (h.1 (by decide)).2

/-! ## Stub: trailers that point outside the file -/

/-- With the length field `2^63` the stub decodes `targetLen = -2^63`; the first
read of the section reader slices its buffer with a negative bound and the
process panics. -/
theorem main_length_field_min_panics :
    (main storeCompression minLengthFS "/s" [] Faults.none).exit
        = Exit.panic "slice bounds out of range" ∧
    (main storeCompression minLengthFS "/s" [] Faults.none).fs "/s_unpacked.exe" = none := by
  decide

/-- C6, as stated, fails: the 16-byte image `corruptImage` ends with the magic
and its length field decodes to `2^64 - 16`, at or above 2^63 and far more than
`total_length - 16 = 0`.  The bad offset is not detected: `targetLen` is `-16`,
`compressedOff` is 16, the section reader delivers an empty view, and with the
storing transform the run writes the temporary executable, absent before. -/
theorem mainStub_bad_length_counterexample :
    corruptFS "/s" = some (Node.file corruptImage) ∧
    lastBytes 8 corruptImage = footerMagic ∧
    uint64LE ((corruptImage.drop (corruptImage.length - 16)).take 8) = 18446744073709551600 ∧
    corruptImage.length - 16 < 18446744073709551600 ∧
    corruptFS "/s_unpacked.exe" = none ∧
    (main storeCompression corruptFS "/s" [] Faults.none).fs "/s_unpacked.exe"
      = some (Node.file []) := by
  decide

/-- C6, amended (corruption detection): for a self image that ends with the
magic (its size fitting an `int64`), if the total length is below 16 the seek to
the length field is rejected, and if the length field decodes to a
`payload_length` with `total_length - 16 < payload_length < 2^63` the payload
offset is negative and the section read is rejected; in both cases the run ends
in `log.Fatal`, whatever the decompressor, with the file system unchanged and no
child started. -/
theorem main_bad_offset_fatal (c : Compression) (fs : FS) (selfPath : String)
    (args : List String) (faults : Faults) (S : List Byte)
    (hS : fs selfPath = some (Node.file S)) (hlen : 8 ≤ S.length)
    (hmagic : lastBytes 8 S = footerMagic) (hsz : S.length < 9223372036854775808) :
    (S.length < 16 →
      main c fs selfPath args faults = ⟨Exit.fatal "failed seeking length", fs, [], none⟩) ∧
    (16 ≤ S.length →
      S.length - 16 < uint64LE ((S.drop (S.length - 16)).take 8) →
      uint64LE ((S.drop (S.length - 16)).take 8) < 9223372036854775808 →
      stubLocate S S.length = Except.ok
        ((S.length : Int) - 16 - (uint64LE ((S.drop (S.length - 16)).take 8) : Int),
          (uint64LE ((S.drop (S.length - 16)).take 8) : Int)) ∧
      sectionReadAll S
          ((S.length : Int) - 16 - (uint64LE ((S.drop (S.length - 16)).take 8) : Int))
          (uint64LE ((S.drop (S.length - 16)).take 8) : Int)
        = Except.error "negative offset" ∧
      main c fs selfPath args faults
        = ⟨Exit.fatal "failed decompressing file", fs, [], none⟩) := by
  have hid : identityResolver S S.length = Except.ok Mode.stub := by
    rw [identityResolver_eq S hlen, if_pos hmagic.symm]
  constructor
  · intro h16
    unfold main
    simp only [hS, hid]
    unfold mainStub
    simp only [stubLocate_short S h16]
  · intro h16 hbig hsmall
    generalize hu : uint64LE ((S.drop (S.length - 16)).take 8) = u at hbig hsmall ⊢
    have hloc : stubLocate S S.length = Except.ok ((S.length : Int) - 16 - (u : Int), (u : Int)) := by
      rw [stubLocate_eq S h16, hu]
      have h1 : wrapInt64 (u : Int) = (u : Int) := by unfold wrapInt64; omega
      rw [h1]
      have h2 : wrapInt64 ((S.length : Int) - 8 - 8 - (u : Int)) = (S.length : Int) - 16 - (u : Int) := by
        unfold wrapInt64; omega
      rw [h2]
    have hrd : sectionReadAll S ((S.length : Int) - 16 - (u : Int)) (u : Int)
        = Except.error "negative offset" := by
      unfold sectionReadAll sectionLimit
      have h1 : (S.length : Int) - 16 - (u : Int) ≤ wrapInt64 (maxInt64 - (u : Int)) := by
        unfold wrapInt64 maxInt64; omega
      have h2 : wrapInt64 ((u : Int) + ((S.length : Int) - 16 - (u : Int))) = (S.length : Int) - 16 := by
        unfold wrapInt64; omega
      have h3 : ¬ ((S.length : Int) - 16 ≤ (S.length : Int) - 16 - (u : Int)) := by omega
      have h4 : (S.length : Int) - 16 - (u : Int) < 0 := by omega
      have h5 : ¬ (wrapInt64 ((S.length : Int) - 16 - ((S.length : Int) - 16 - (u : Int))) < 0) := by
        unfold wrapInt64; omega
      simp only [h1, if_true, h2, h3, if_false, h4, h5]
    have hpn : sectionPanics ((S.length : Int) - 16 - (u : Int)) (u : Int) = false := by
      unfold sectionPanics sectionLimit
      have h1 : (S.length : Int) - 16 - (u : Int) ≤ wrapInt64 (maxInt64 - (u : Int)) := by
        unfold wrapInt64 maxInt64; omega
      have h2 : wrapInt64 ((u : Int) + ((S.length : Int) - 16 - (u : Int))) = (S.length : Int) - 16 := by
        unfold wrapInt64; omega
      have h5 : ¬ (wrapInt64 ((S.length : Int) - 16 - ((S.length : Int) - 16 - (u : Int))) < 0) := by
        unfold wrapInt64; omega
      simp only [h1, if_true, h2, h5, and_false, decide_False]
    refine ⟨hloc, hrd, ?_⟩
    unfold main
    simp only [hS, hid]
    unfold mainStub
    simp only [hloc, hpn, Bool.false_eq_true, if_false, hrd]

theorem main_bad_offset_fatal_witness :
    main storeCompression bareMagicFS "/s" [] Faults.none
      = ⟨Exit.fatal "failed seeking length", bareMagicFS, [], none⟩ ∧
    main storeCompression overlongFS "/s" [] Faults.none
      = ⟨Exit.fatal "failed decompressing file", overlongFS, [], none⟩ :=
  ⟨(main_bad_offset_fatal storeCompression bareMagicFS "/s" [] Faults.none footerMagic
      (by decide) (by decide) (by decide) (by decide)).1 (by decide),
    ((main_bad_offset_fatal storeCompression overlongFS "/s" [] Faults.none overlongImage
      (by decide) (by decide) (by decide) (by decide)).2
        (by decide) (by decide) (by decide)).2.2⟩

/-! ## Intermediate contents and the magic -/

theorem lastBytes_suffix (n : Nat) (d : List Byte) : lastBytes n d <:+ d :=
  List.drop_suffix _ d

/-- If `S ++ p` ends with the magic and `p` is not empty, the magic lies inside
the last 7 bytes of `S` followed by `p`. -/
theorem magic_infix_of_ends (S p : List Byte) (hS : 8 ≤ S.length) (hp : p ≠ [])
    (h : lastBytes 8 (S ++ p) = footerMagic) : footerMagic <:+: lastBytes 7 S ++ p := by
  have h1 : footerMagic <:+ S ++ p := by
    rw [← h]
    exact lastBytes_suffix 8 (S ++ p)
  have h2 : lastBytes 7 S ++ p <:+ S ++ p := by
    obtain ⟨t, ht⟩ := lastBytes_suffix 7 S
    exact ⟨t, by rw [← List.append_assoc, ht]⟩
  have h3 : footerMagic.length ≤ (lastBytes 7 S ++ p).length := by
    have hp2 : 0 < p.length := List.length_pos.mpr hp
    rw [List.length_append, lastBytes_length 7 S (by omega), footerMagic_length]
    omega
  exact (List.suffix_of_suffix_length_le h1 h2 h3).isInfix

/-- An intermediate content `S ++ p` is not a stub when `p` is empty, or when
`p` is a prefix of `X` and the magic does not occur in the last 7 bytes of `S`
followed by `X`. -/
theorem partial_not_stub (S p X : List Byte)
    (hmode : identityResolver S S.length = Except.ok Mode.packer)
    (hpX : p <+: X)
    (h : p = [] ∨ ¬ footerMagic <:+: lastBytes 7 S ++ X) :
    identityResolver (S ++ p) (S ++ p).length = Except.ok Mode.packer := by
  have hlen := packer_mode_length S hmode
  by_cases hp : p = []
  · rw [hp, List.append_nil]
    exact hmode
  · have hX : ¬ footerMagic <:+: lastBytes 7 S ++ X := by
      cases h with
      | inl h0 => exact absurd h0 hp
      | inr h1 => exact h1
    rw [identityResolver_eq (S ++ p) (by rw [List.length_append]; omega)]
    have hne : ¬ footerMagic = lastBytes 8 (S ++ p) := by
      intro e
      apply hX
      have hin := magic_infix_of_ends S p hlen hp e.symm
      exact hin.trans ((List.prefix_append_right_inj (lastBytes 7 S)).mpr hpX).isInfix
    rw [if_neg hne]

theorem written_magic_short (fault : Option Nat) (h : faultHits footerMagic fault = true) :
    written footerMagic fault <+: footerMagic.take 7 := by
  cases fault with
  | none => simp [faultHits] at h
  | some k =>
    simp only [faultHits, decide_eq_true_eq, footerMagic_length] at h
    simp only [written]
    exact List.take_prefix_take_left footerMagic (by omega)

/-! ## Packer: precondition on the target -/

theorem copyFile_ok_dst (fs : FS) (running src dst : String) (fault : Option Nat)
    (h : (copyFile fs running src dst fault).1 = none) : fs dst ≠ some Node.dir :=
  fun hd => (copyFile_dst_dir fs running src dst fault hd).1 h

/-- A pack run whose target is a directory stops after the stub copy. -/
theorem mainCLI_dir_target (c : Compression) (fs : FS) (selfPath target : String)
    (rest : List String) (faults : Faults) (S : List Byte)
    (hS : fs selfPath = some (Node.file S)) (hT : fs target = some Node.dir)
    (hout : fs (target ++ packedExt) ≠ some Node.dir)
    (hne : ¬ fs.sameFile selfPath (target ++ packedExt))
    (hcopy : faultHits S faults.copy = false) :
    mainCLI c fs selfPath (target :: rest) faults =
      ⟨Exit.fatal "failed appending stub",
        fs.write (target ++ packedExt) (Node.file S), [], none⟩ := by
  have hnt : ¬ fs.sameFile target (target ++ packedExt) := by
    intro h
    apply hout
    rw [← FS.get_congr fs _ _ h]
    exact hT
  unfold mainCLI
  simp only [hT]
  rw [copyFile_eq fs selfPath (target ++ packedExt) faults.copy S hS hout hne]
  simp only [hcopy, Bool.false_eq_true, if_false]
  rw [written_of_not_hit _ _ hcopy]
  have hT2 : openReader (fs.write (target ++ packedExt) (Node.file S)) target
      = some (Except.error "is a directory") := by
    unfold openReader
    rw [FS.write_other _ _ _ _ hnt]
    simp only [hT]
  simp only [hT2]
  have hbusy : ¬ (fs.write (target ++ packedExt) (Node.file S)).sameFile
      (target ++ packedExt) selfPath := fun h => hne h.symm
  unfold appendToFile
  simp only [FS.write_same, hbusy, if_false]

/-- A pack run whose target is a directory ends in `log.Fatal`. -/
theorem mainCLI_dir_target_fails (c : Compression) (fs : FS) (selfPath target : String)
    (rest : List String) (faults : Faults) (hT : fs target = some Node.dir) :
    ∃ msg : String, (mainCLI c fs selfPath (target :: rest) faults).exit = Exit.fatal msg := by
  unfold mainCLI
  simp only [hT]
  split
  · exact ⟨_, rfl⟩
  · rename_i fs1 hc
    have hfr := copyFile_frame fs selfPath selfPath (target ++ packedExt) faults.copy
    rw [hc] at hfr
    have hod : fs (target ++ packedExt) ≠ some Node.dir :=
      copyFile_ok_dst fs selfPath selfPath (target ++ packedExt) faults.copy (by rw [hc])
    have hnt : ¬ fs.sameFile target (target ++ packedExt) := by
      intro h
      apply hod
      rw [← FS.get_congr fs _ _ h]
      exact hT
    have hT1 : fs1 target = some Node.dir := by
      rw [FS.agreeOff_get fs fs1 _ _ hfr hnt]
      exact hT
    have hrd : openReader fs1 target = some (Except.error "is a directory") := by
      unfold openReader
      simp only [hT1]
    simp only [hrd]
    obtain ⟨msg, hmsg⟩ := appendToFile_unreadable c fs1 selfPath (target ++ packedExt)
      "is a directory" true faults.payload
    split
    · exact ⟨_, rfl⟩
    · rename_i h2
      rw [h2] at hmsg
      cases hmsg

/-- C5, as stated, fails: when the target is a directory the run fails only after
the stub copy, so `/t/d.packed`, absent before, exists after the failed run. -/
theorem mainCLI_dir_target_counterexample :
    dirTargetFS "/t/d" = some Node.dir ∧
    dirTargetFS "/t/d.packed" = none ∧
    (mainCLI storeCompression dirTargetFS "/bin/gopacker" ["/t/d"] Faults.none).exit
        = Exit.fatal "failed appending stub" ∧
    (mainCLI storeCompression dirTargetFS "/bin/gopacker" ["/t/d"] Faults.none).fs "/t/d.packed"
        ≠ none := by
  decide

/-- C5, amended (packer precondition): for a target path that does not exist
`mainCLI` ends in `log.Fatal("target exec does not exist")` before anything is
created: the file system after the run is the one before it.  For a target that
exists but is a directory `mainCLI` also ends in `log.Fatal`, but not before the
output is touched: when the stub copy goes through (the Self Image is a regular
file, `<target>.packed` is neither a directory nor the running binary, and the
copy is not cut short) the run fails at the payload
(`"failed appending stub"`) and leaves a file at `<target>.packed`. -/
theorem mainCLI_target_precondition (c : Compression) (fs : FS) (selfPath target : String)
    (rest : List String) (faults : Faults) :
    (fs target = none →
      mainCLI c fs selfPath (target :: rest) faults
        = ⟨Exit.fatal "target exec does not exist", fs, [], none⟩) ∧
    (fs target = some Node.dir →
      ∃ msg : String, (mainCLI c fs selfPath (target :: rest) faults).exit = Exit.fatal msg) ∧
    (∀ S : List Byte, fs target = some Node.dir → fs selfPath = some (Node.file S) →
      fs (target ++ packedExt) ≠ some Node.dir →
      ¬ fs.sameFile selfPath (target ++ packedExt) →
      faultHits S faults.copy = false →
      (mainCLI c fs selfPath (target :: rest) faults).exit
          = Exit.fatal "failed appending stub" ∧
      ∃ d : List Byte,
        (mainCLI c fs selfPath (target :: rest) faults).fs (target ++ packedExt)
          = some (Node.file d)) := by
  refine ⟨?_, ?_, ?_⟩
  · intro hT
    unfold mainCLI
    simp only [hT]
  · exact mainCLI_dir_target_fails c fs selfPath target rest faults
  · intro S hT hS hout hne hcopy
    rw [mainCLI_dir_target c fs selfPath target rest faults S hS hT hout hne hcopy]
    exact ⟨rfl, _, FS.write_same _ _ _⟩

theorem mainCLI_target_precondition_witness :
    mainCLI storeCompression demoFS "/bin/gopacker" ["/t/missing"] Faults.none
        = ⟨Exit.fatal "target exec does not exist", demoFS, [], none⟩ ∧
    (∃ msg : String,
      (mainCLI storeCompression dirTargetFS "/bin/gopacker" ["/t/d"] Faults.none).exit
        = Exit.fatal msg) ∧
    (mainCLI storeCompression dirTargetFS "/bin/gopacker" ["/t/d"] Faults.none).exit
        = Exit.fatal "failed appending stub" ∧
    ∃ d : List Byte,
      (mainCLI storeCompression dirTargetFS "/bin/gopacker" ["/t/d"] Faults.none).fs
          ("/t/d" ++ packedExt) = some (Node.file d) :=
  ⟨(mainCLI_target_precondition storeCompression demoFS "/bin/gopacker" "/t/missing" []
      Faults.none).1 (by decide),
    (mainCLI_target_precondition storeCompression dirTargetFS "/bin/gopacker" "/t/d" []
      Faults.none).2.1 (by decide),
    (mainCLI_target_precondition storeCompression dirTargetFS "/bin/gopacker" "/t/d" []
      Faults.none).2.2 [1, 2, 3, 4, 5, 6, 7, 8, 9] (by decide) (by decide) (by decide)
        (by decide) (by decide)⟩

/-! ## Packer: what a failed run leaves behind -/

/-- C10, as stated, fails: the target `/t/m` begins with the 8 magic bytes; with
the storing transform and a write error after 8 payload bytes the run fails at
step 2 and leaves `S ++ (prefix of the payload)`, which ends with the magic and
is classified as a stub by the trailer check. -/
theorem mainCLI_partial_payload_counterexample :
    (main storeCompression magicTargetFS "/bin/gopacker" ["/t/m"]
        ⟨none, some 8, none, none, false⟩).exit = Exit.fatal "failed appending stub" ∧
    (main storeCompression magicTargetFS "/bin/gopacker" ["/t/m"]
        ⟨none, some 8, none, none, false⟩).fs "/t/m.packed"
      = some (Node.file ([1, 2, 3, 4, 5, 6, 7, 8, 9] ++ footerMagic)) ∧
    lastBytes 8 ([1, 2, 3, 4, 5, 6, 7, 8, 9] ++ footerMagic) = footerMagic ∧
    identityResolver ([1, 2, 3, 4, 5, 6, 7, 8, 9] ++ footerMagic)
        (([1, 2, 3, 4, 5, 6, 7, 8, 9] ++ footerMagic).length : Nat)
      = Except.ok Mode.stub :=
  ⟨by decide, by decide, by decide, by rfl⟩

/-- A pack run whose stub copy is cut short stops there. -/
theorem mainCLI_copy_cut (c : Compression) (fs : FS) (selfPath target : String)
    (rest : List String) (faults : Faults) (S : List Byte) (T : Node)
    (hS : fs selfPath = some (Node.file S)) (hT : fs target = some T)
    (hout : fs (target ++ packedExt) ≠ some Node.dir)
    (hne : ¬ fs.sameFile selfPath (target ++ packedExt))
    (hcopy : faultHits S faults.copy = true) :
    mainCLI c fs selfPath (target :: rest) faults =
      ⟨Exit.fatal "failed copying stub",
        fs.write (target ++ packedExt) (Node.file (written S faults.copy)), [], none⟩ := by
  unfold mainCLI
  simp only [hT]
  rw [copyFile_eq fs selfPath (target ++ packedExt) faults.copy S hS hout hne]
  simp only [hcopy, if_true]

/-- A proper prefix of `S` is not classified as a stub when the magic does not
occur in `S`. -/
theorem truncated_not_stub (S : List Byte) (k : Nat)
    (h : ¬ footerMagic <:+: S) :
    identityResolver (S.take k) (S.take k).length ≠ Except.ok Mode.stub := by
  intro hs
  by_cases hlen : 8 ≤ (S.take k).length
  · rw [identityResolver_eq _ hlen] at hs
    by_cases e : footerMagic = lastBytes 8 (S.take k)
    · apply h
      have h1 : footerMagic <:+ S.take k := by
        rw [e]
        exact lastBytes_suffix 8 _
      exact h1.isInfix.trans (List.take_prefix k S).isInfix
    · rw [if_neg e] at hs
      cases hs
  · rw [identityResolver_short _ (by omega)] at hs
    cases hs

/-- C10, amended (magic append is the commit point): take a pack run that fails
before step 4 completes, the Self Image `S` (accepted in packer mode) and the
target being files other than the one the output path names.  Either the run
changed nothing (nonexistent target, output path not openable); or the stub copy
was cut short and it leaves a proper prefix of `S`, which is not classified as a stub when the magic does not occur in `S`;
or it leaves `S ++ p` at `<target>.packed`, `p` being the bytes appended so far,
and this file is classified as a non-stub when `p` is empty (the content is
exactly `S`), and whenever the magic does not occur as a contiguous block in the
last 7 bytes of `S` followed by
`compress F ++ LE64 n ++ (first 7 bytes of the magic)`. -/
theorem mainCLI_failed_run_not_stub (c : Compression) (fs : FS) (selfPath target : String)
    (rest : List String) (faults : Faults) (S : List Byte)
    (hS : fs selfPath = some (Node.file S))
    (hmode : identityResolver S S.length = Except.ok Mode.packer)
    (hne : ¬ fs.sameFile selfPath (target ++ packedExt))
    (hnt : ¬ fs.sameFile target (target ++ packedExt))
    (hfail : (mainCLI c fs selfPath (target :: rest) faults).exit ≠ Exit.ok) :
    (mainCLI c fs selfPath (target :: rest) faults).fs = fs ∨
    (∃ k : Nat, k < S.length ∧
      (mainCLI c fs selfPath (target :: rest) faults).fs (target ++ packedExt)
        = some (Node.file (S.take k)) ∧
      (¬ footerMagic <:+: S →
        identityResolver (S.take k) (S.take k).length ≠ Except.ok Mode.stub)) ∨
    ∃ p : List Byte,
      (mainCLI c fs selfPath (target :: rest) faults).fs (target ++ packedExt)
        = some (Node.file (S ++ p)) ∧
      ((p = [] ∨ ∀ F : List Byte, fs target = some (Node.file F) →
          ¬ footerMagic <:+: lastBytes 7 S ++
            (c.compress F ++ putUint64 (c.compress F).length ++ footerMagic.take 7)) →
        identityResolver (S ++ p) (S ++ p).length = Except.ok Mode.packer) := by
  cases hT : fs target with
  | none =>
    left
    unfold mainCLI
    simp only [hT]
  | some T =>
    by_cases hout : fs (target ++ packedExt) = some Node.dir
    · left
      exact (mainCLI_out_dir c fs selfPath target rest faults hout).1
    · right
      by_cases hhit : faultHits S faults.copy = true
      · left
        rw [mainCLI_copy_cut c fs selfPath target rest faults S T hS hT hout hne hhit]
        dsimp only
        rw [FS.write_same]
        cases hf : faults.copy with
        | none =>
          rw [hf] at hhit
          simp [faultHits] at hhit
        | some k =>
          rw [hf] at hhit
          simp only [faultHits, decide_eq_true_eq] at hhit
          exact ⟨k, hhit, rfl, truncated_not_stub S k⟩
      · right
        have hc1 : faultHits S faults.copy = false := Bool.eq_false_iff.mpr hhit
        cases T with
        | dir =>
          refine ⟨[], ?_, ?_⟩
          · rw [mainCLI_dir_target c fs selfPath target rest faults S hS hT hout hne hc1]
            dsimp only
            rw [FS.write_same, List.append_nil]
          · intro _
            rw [List.append_nil]
            exact hmode
        | file F =>
          rw [mainCLI_run c fs selfPath target rest faults S F hS hT hout hne hnt] at hfail ⊢
          simp only [hc1, Bool.false_eq_true, if_false] at hfail ⊢
          by_cases h2 : faultHits (c.compress F) faults.payload = true
          · simp only [h2, if_true]
            refine ⟨written (c.compress F) faults.payload, FS.write_same _ _ _, ?_⟩
            intro h
            apply partial_not_stub S _
              (c.compress F ++ putUint64 (c.compress F).length ++ footerMagic.take 7) hmode
            · rw [List.append_assoc]
              exact (written_initial _ _).trans (List.prefix_append _ _)
            · exact h.imp id (fun hh => hh F rfl)
          · simp only [h2, Bool.false_eq_true, if_false] at hfail ⊢
            by_cases h3 : faultHits (putUint64 (c.compress F).length) faults.len = true
            · simp only [h3, if_true]
              refine ⟨c.compress F ++ written (putUint64 (c.compress F).length) faults.len,
                ?_, ?_⟩
              · rw [FS.write_same, List.append_assoc]
              · intro h
                apply partial_not_stub S _
                  (c.compress F ++ putUint64 (c.compress F).length ++ footerMagic.take 7) hmode
                · rw [List.append_assoc, List.prefix_append_right_inj]
                  exact (written_initial _ _).trans (List.prefix_append _ _)
                · exact h.imp id (fun hh => hh F rfl)
            · simp only [h3, Bool.false_eq_true, if_false] at hfail ⊢
              by_cases h4 : faultHits footerMagic faults.magic = true
              · simp only [h4, if_true]
                refine ⟨c.compress F ++ putUint64 (c.compress F).length
                  ++ written footerMagic faults.magic, ?_, ?_⟩
                · rw [FS.write_same]
                  simp only [List.append_assoc]
                · intro h
                  apply partial_not_stub S _
                    (c.compress F ++ putUint64 (c.compress F).length ++ footerMagic.take 7)
                    hmode
                  · rw [List.prefix_append_right_inj]
                    exact written_magic_short _ h4
                  · exact h.imp id (fun hh => hh F rfl)
              · simp only [h4, Bool.false_eq_true, if_false] at hfail
                exact absurd rfl hfail

theorem mainCLI_failed_run_not_stub_witness :
    (mainCLI storeCompression demoFS "/bin/gopacker" ["/t/a"]
        ⟨none, some 2, none, none, false⟩).exit ≠ Exit.ok ∧
    ((mainCLI storeCompression demoFS "/bin/gopacker" ["/t/a"]
        ⟨none, some 2, none, none, false⟩).fs = demoFS ∨
    (∃ k : Nat, k < ([1, 2, 3, 4, 5, 6, 7, 8, 9] : List Byte).length ∧
      (mainCLI storeCompression demoFS "/bin/gopacker" ["/t/a"]
          ⟨none, some 2, none, none, false⟩).fs ("/t/a" ++ packedExt)
        = some (Node.file (([1, 2, 3, 4, 5, 6, 7, 8, 9] : List Byte).take k)) ∧
      (¬ footerMagic <:+: [1, 2, 3, 4, 5, 6, 7, 8, 9] →
        identityResolver (([1, 2, 3, 4, 5, 6, 7, 8, 9] : List Byte).take k)
          (([1, 2, 3, 4, 5, 6, 7, 8, 9] : List Byte).take k).length
            ≠ Except.ok Mode.stub)) ∨
    ∃ p : List Byte,
      (mainCLI storeCompression demoFS "/bin/gopacker" ["/t/a"]
          ⟨none, some 2, none, none, false⟩).fs ("/t/a" ++ packedExt)
        = some (Node.file ([1, 2, 3, 4, 5, 6, 7, 8, 9] ++ p)) ∧
      ((p = [] ∨ ∀ F : List Byte, demoFS "/t/a" = some (Node.file F) →
          ¬ footerMagic <:+: lastBytes 7 [1, 2, 3, 4, 5, 6, 7, 8, 9] ++
            (storeCompression.compress F ++ putUint64 (storeCompression.compress F).length
              ++ footerMagic.take 7)) →
        identityResolver ([1, 2, 3, 4, 5, 6, 7, 8, 9] ++ p)
            ([1, 2, 3, 4, 5, 6, 7, 8, 9] ++ p).length = Except.ok Mode.packer)) :=
  ⟨by decide,
    mainCLI_failed_run_not_stub storeCompression demoFS "/bin/gopacker" "/t/a" []
      ⟨none, some 2, none, none, false⟩ [1, 2, 3, 4, 5, 6, 7, 8, 9] (by decide) (by rfl)
      (by decide) (by decide) (by decide)⟩

end GoPacker
